import Mathlib

/-!
Verification development for the Mud-Reports solids-control insight system.

The repository ships the frontend (React components) and the design
documents for the backend Event Detection Engine and Causal Linker
(`docs/build-overview.md` §2 and the design plan §5); the backend service
sources themselves are not part of the tree.  The engine definitions below
are therefore modelled from the specification documents, while the
frontend definitions (`eventCardsView`, the TrendCharts chemical
aggregation, `getExtractors` / `eventSparkline`) are translated from the
TypeScript sources under `frontend/src`.
-/

/- ═══════════════ Core data model (engine) ═══════════════ -/

/-- Severity of an event: HIGH / MEDIUM / LOW. -/
inductive Severity where
  | high
  | medium
  | low
deriving Repr, DecidableEq

/-- Confidence of a causal link: HIGH / MEDIUM only (no LOW). -/
inductive Confidence where
  | high
  | medium
deriving Repr, DecidableEq

/-- Direction of a rheology shift (UP or DOWN). -/
inductive Dir where
  | up
  | down
deriving Repr, DecidableEq

/-- Closed enumeration of the 18 event kinds, grouped into
Equipment / MudProperty / Inventory families. -/
inductive EventKind where
  | shakerDown
  | screenChange
  | centrifugeDown
  | centrifugeFeedChange
  | hydrocycloneDown
  | equipmentStartup
  | solidsSpike
  | sandIncrease
  | lgsCreep
  | drillSolidsRise
  | rheologyShift
  | weightUp
  | dilution
  | phShift
  | newChemical
  | chemicalSpike
  | largeFormationLoss
  | highSCRemoval
deriving Repr, DecidableEq

/-- String form of an event kind, used in deterministic event IDs. -/
def kindStr : EventKind → String
  | .shakerDown => "shaker_down"
  | .screenChange => "screen_change"
  | .centrifugeDown => "centrifuge_down"
  | .centrifugeFeedChange => "centrifuge_feed_change"
  | .hydrocycloneDown => "hydrocyclone_down"
  | .equipmentStartup => "equipment_startup"
  | .solidsSpike => "solids_spike"
  | .sandIncrease => "sand_increase"
  | .lgsCreep => "lgs_creep"
  | .drillSolidsRise => "drill_solids_rise"
  | .rheologyShift => "rheology_shift"
  | .weightUp => "weight_up"
  | .dilution => "dilution"
  | .phShift => "ph_shift"
  | .newChemical => "new_chemical"
  | .chemicalSpike => "chemical_spike"
  | .largeFormationLoss => "large_formation_loss"
  | .highSCRemoval => "high_sc_removal"

/-- Modelled from the spec: a typed, severity-ranked anomaly (§3).  The
`values` association list holds the raw numeric evidence; `disc` is the
discriminating suffix (equipment / unit / item name) used in the
deterministic ID; `direction` is set for rheology shifts; `category` is
the chemical category for inventory events; `related` is the
related-event-id list, initially empty, populated only by the Causal
Linker. -/
structure Event where
  id : String
  kind : EventKind
  severity : Severity
  date : Int
  disc : String
  description : String
  values : List (String × ℤ)
  direction : Option Dir
  category : Option String
  related : List String
deriving Repr, DecidableEq

/-- Direction of a chemical transaction: addition or loss. -/
inductive TxnDir where
  | add
  | loss
deriving Repr, DecidableEq

/-- Modelled from the spec: one chemical-transaction entry of a
DailyRecord (item name, direction, quantity, unit, category tag). -/
structure ChemTxn where
  item : String
  dir : TxnDir
  qty : ℤ
  unitName : String
  category : String
deriving Repr, DecidableEq

/-- Modelled from the spec: a named shaker entry (hours and mesh/screen
size configuration field). -/
structure ShakerRec where
  name : String
  hours : Option ℤ
  mesh : Option String
deriving Repr, DecidableEq

/-- Modelled from the spec: a named centrifuge entry (hours and feed
rate). -/
structure CentrifugeRec where
  name : String
  hours : Option ℤ
  feedRate : Option ℤ
deriving Repr, DecidableEq

/-- The three fixed hydrocyclone units. -/
inductive HydroUnit where
  | desander
  | desilter
  | mudCleaner
deriving Repr, DecidableEq

/-- Discriminating name of a hydrocyclone unit. -/
def hydroName : HydroUnit → String
  | .desander => "desander"
  | .desilter => "desilter"
  | .mudCleaner => "mud_cleaner"

/-- Modelled from the spec: the mud-property sub-record — a fixed set of
numeric fields, each independently nullable. -/
structure MudProps where
  solids : Option ℤ
  sand : Option ℤ
  lgs : Option ℤ
  drillSolids : Option ℤ
  pv : Option ℤ
  yp : Option ℤ
  mudWeight : Option ℤ
  ph : Option ℤ
deriving Repr, DecidableEq

/-- Modelled from the spec: one normalized daily record per calendar
date (§3): equipment sub-record, mud-property sub-record and the
chemical-transaction list.  Dates are calendar day numbers. -/
structure DailyRecord where
  date : Int
  shakers : List ShakerRec
  centrifuges : List CentrifugeRec
  desanderHours : Option ℤ
  desilterHours : Option ℤ
  mudCleanerHours : Option ℤ
  mud : MudProps
  chemicals : List ChemTxn
deriving Repr, DecidableEq

/-- Hours of a hydrocyclone unit in a record. -/
def hydroHours (u : HydroUnit) (r : DailyRecord) : Option ℤ :=
  match u with
  | .desander => r.desanderHours
  | .desilter => r.desilterHours
  | .mudCleaner => r.mudCleanerHours

/-- Hours of the named shaker in a record (None when the unit is
absent or its hours are null). -/
def shakerHoursIn (r : DailyRecord) (name : String) : Option ℤ :=
  (r.shakers.find? (fun s => s.name == name)).bind (fun s => s.hours)

/-- Mesh value of the named shaker in a record; the outer Option is
None when the unit is absent. -/
def shakerMeshIn (r : DailyRecord) (name : String) : Option (Option String) :=
  (r.shakers.find? (fun s => s.name == name)).map (fun s => s.mesh)

/-- Hours of the named centrifuge in a record. -/
def centHoursIn (r : DailyRecord) (name : String) : Option ℤ :=
  (r.centrifuges.find? (fun c => c.name == name)).bind (fun c => c.hours)

/-- Feed rate of the named centrifuge in a record. -/
def centFeedIn (r : DailyRecord) (name : String) : Option ℤ :=
  (r.centrifuges.find? (fun c => c.name == name)).bind (fun c => c.feedRate)

/- ═══════════════ Shared window / average utilities ═══════════════ -/

/-- Values of a field over the up-to-`n` days immediately preceding
index `i`, skipping null days (spec: tolerate missing days by skipping
them, never substituting zero). -/
def trailingVals (n : Nat) (f : DailyRecord → Option ℤ) (hist : List DailyRecord) (i : Nat) : List ℤ :=
  ((hist.take i).drop (i - n)).filterMap f

/-- Record of the day immediately preceding index `i` (None at the start
of the history). -/
def prevRec (hist : List DailyRecord) (i : Nat) : Option DailyRecord :=
  match i with
  | 0 => none
  | j + 1 => hist[j]?

/-- Builds a detector-emitted event; the orchestrator fills in the ID. -/
def mkProto (k : EventKind) (sev : Severity) (d : Int) (disc : String)
    (descr : String) (vals : List (String × ℤ)) : Event :=
  { id := "", kind := k, severity := sev, date := d, disc := disc,
    description := descr, values := vals, direction := none,
    category := none, related := [] }

/-- Modelled from the spec: firing condition of the hours-drop detectors
(§4.1) — current hours at most 50% of the non-trivial 7-day trailing
average, and never from a steady 0→0 idle state. -/
def hoursDropFires (prev : Option ℤ) (cur : ℤ) (w : List ℤ) : Bool :=
  !w.isEmpty && decide (0 < w.sum) && decide (cur * 2 * (w.length : ℤ) ≤ w.sum) &&
    !(prev == some 0 && cur == 0)

/-- Modelled from the spec: shaker hours-drop detector (HIGH). -/
def detectShakerDown (hist : List DailyRecord) (i : Nat) : List Event :=
  match hist[i]? with
  | none => []
  | some r =>
    r.shakers.filterMap fun s =>
      match s.hours with
      | none => none
      | some c =>
        let w := trailingVals 7 (fun d => shakerHoursIn d s.name) hist i
        let prev := (prevRec hist i).bind (fun p => shakerHoursIn p s.name)
        if hoursDropFires prev c w then
          some (mkProto .shakerDown .high r.date s.name
            "shaker hours dropped versus trailing average"
            [("hours", c), ("win_sum", w.sum)])
        else none

/-- Modelled from the spec: centrifuge hours-drop detector (HIGH). -/
def detectCentrifugeDown (hist : List DailyRecord) (i : Nat) : List Event :=
  match hist[i]? with
  | none => []
  | some r =>
    r.centrifuges.filterMap fun s =>
      match s.hours with
      | none => none
      | some c =>
        let w := trailingVals 7 (fun d => centHoursIn d s.name) hist i
        let prev := (prevRec hist i).bind (fun p => centHoursIn p s.name)
        if hoursDropFires prev c w then
          some (mkProto .centrifugeDown .high r.date s.name
            "centrifuge hours dropped versus trailing average"
            [("hours", c), ("win_sum", w.sum)])
        else none

/-- Modelled from the spec: hydrocyclone hours-drop detector over the
three fixed units (MEDIUM). -/
def detectHydroDown (hist : List DailyRecord) (i : Nat) : List Event :=
  match hist[i]? with
  | none => []
  | some r =>
    [HydroUnit.desander, HydroUnit.desilter, HydroUnit.mudCleaner].filterMap fun u =>
      match hydroHours u r with
      | none => none
      | some c =>
        let w := trailingVals 7 (hydroHours u) hist i
        let prev := (prevRec hist i).bind (hydroHours u)
        if hoursDropFires prev c w then
          some (mkProto .hydrocycloneDown .medium r.date (hydroName u)
            "hydrocyclone hours dropped versus trailing average"
            [("hours", c), ("win_sum", w.sum)])
        else none

/-- Modelled from the spec: configuration-change (screen/mesh) detector —
fires when the mesh value differs from the immediately preceding day,
excluding null→null and a unit's first appearance (MEDIUM). -/
def detectScreenChange (hist : List DailyRecord) (i : Nat) : List Event :=
  match prevRec hist i, hist[i]? with
  | some p, some r =>
    r.shakers.filterMap fun s =>
      match shakerMeshIn p s.name with
      | none => none
      | some pm =>
        if pm != s.mesh then
          some (mkProto .screenChange .medium r.date s.name
            "shaker screen size changed from previous day" [])
        else none
  | _, _ => []

/-- Modelled from the spec: feed-rate-change detector — fires when the
rate changes by more than 25% day-over-day, division-by-zero guarded
(MEDIUM). -/
def detectCentFeedChange (hist : List DailyRecord) (i : Nat) : List Event :=
  match prevRec hist i, hist[i]? with
  | some pr, some r =>
    r.centrifuges.filterMap fun s =>
      match centFeedIn pr s.name, s.feedRate with
      | some p, some c =>
        if p != 0 && decide (|p| < |c - p| * 4) then
          some (mkProto .centrifugeFeedChange .medium r.date s.name
            "centrifuge feed rate changed by more than 25%"
            [("prev", p), ("cur", c)])
        else none
      | _, _ => none
  | _, _ => []

/-- Modelled from the spec: startup detector — fires when hours go from
0 (or null) to a positive value (LOW, informational). -/
def detectStartup (hist : List DailyRecord) (i : Nat) : List Event :=
  match prevRec hist i, hist[i]? with
  | some p, some r =>
    (r.shakers.filterMap fun s =>
      match s.hours with
      | some c =>
        if decide (0 < c) && (shakerHoursIn p s.name == some 0 || shakerHoursIn p s.name == none) then
          some (mkProto .equipmentStartup .low r.date s.name
            "shaker started up" [("hours", c)])
        else none
      | none => none) ++
    (r.centrifuges.filterMap fun s =>
      match s.hours with
      | some c =>
        if decide (0 < c) && (centHoursIn p s.name == some 0 || centHoursIn p s.name == none) then
          some (mkProto .equipmentStartup .low r.date s.name
            "centrifuge started up" [("hours", c)])
        else none
      | none => none) ++
    ([HydroUnit.desander, HydroUnit.desilter, HydroUnit.mudCleaner].filterMap fun u =>
      match hydroHours u r with
      | some c =>
        if decide (0 < c) && (hydroHours u p == some 0 || hydroHours u p == none) then
          some (mkProto .equipmentStartup .low r.date (hydroName u)
            "hydrocyclone started up" [("hours", c)])
        else none
      | none => none)
  | _, _ => []

/-- Modelled from the spec: single-day solids percentage-jump detector —
fires on a day-over-day increase above 15% (HIGH). -/
def detectSolidsSpike (hist : List DailyRecord) (i : Nat) : List Event :=
  match prevRec hist i, hist[i]? with
  | some pr, some r =>
    match pr.mud.solids, r.mud.solids with
    | some p, some c =>
      if decide (0 < p) && decide (p * 15 < (c - p) * 100) then
        [mkProto .solidsSpike .high r.date "solids"
          "solids content jumped more than 15% in one day" [("prev", p), ("cur", c)]]
      else []
    | _, _ => []
  | _, _ => []

/-- Modelled from the spec: sand-increase detector — fires when sand
content exceeds 0.5% absolute or doubles day-over-day (HIGH). -/
def detectSandIncrease (hist : List DailyRecord) (i : Nat) : List Event :=
  match hist[i]? with
  | none => []
  | some r =>
    match r.mud.sand with
    | none => []
    | some c =>
      let prev := (prevRec hist i).bind (fun p => p.mud.sand)
      let doubled := match prev with
        | some p => decide (0 < p) && decide (p * 2 ≤ c)
        | none => false
      if decide (1 < c * 2) || doubled then
        [mkProto .sandIncrease .high r.date "sand"
          "sand content exceeded threshold or doubled" [("cur", c)]]
      else []

/-- Modelled from the spec: low-gravity-solids creep detector — fires
when the current value exceeds the 3-day trailing average by more than
0.5%, skipping missing days (MEDIUM). -/
def detectLgsCreep (hist : List DailyRecord) (i : Nat) : List Event :=
  match hist[i]? with
  | none => []
  | some r =>
    match r.mud.lgs with
    | none => []
    | some c =>
      let w := trailingVals 3 (fun d => d.mud.lgs) hist i
      if !w.isEmpty && decide ((w.length : ℤ) < (c * (w.length : ℤ) - w.sum) * 2) then
        [mkProto .lgsCreep .medium r.date "lgs"
          "LGS crept up versus 3-day average" [("cur", c), ("win_sum", w.sum)]]
      else []

/-- Modelled from the spec: drill-solids single-day absolute-delta
detector — fires on a rise above 0.3% in one day (MEDIUM). -/
def detectDrillSolidsRise (hist : List DailyRecord) (i : Nat) : List Event :=
  match prevRec hist i, hist[i]? with
  | some pr, some r =>
    match pr.mud.drillSolids, r.mud.drillSolids with
    | some p, some c =>
      if decide (3 < (c - p) * 10) then
        [mkProto .drillSolidsRise .medium r.date "drill_solids"
          "drill solids rose more than 0.3% in one day" [("prev", p), ("cur", c)]]
      else []
    | _, _ => []
  | _, _ => []

/-- Modelled from the spec: one rheology field (PV or YP) versus its
3-day trailing average; fires above a 20% shift and records the
direction (MEDIUM). -/
def rheoOne (label : String) (f : MudProps → Option ℤ)
    (hist : List DailyRecord) (i : Nat) : List Event :=
  match hist[i]? with
  | none => []
  | some r =>
    match f r.mud with
    | none => []
    | some c =>
      let w := trailingVals 3 (fun d => f d.mud) hist i
      if !w.isEmpty && decide (0 < w.sum) &&
          decide (w.sum < |c * (w.length : ℤ) - w.sum| * 5) then
        [{ mkProto .rheologyShift .medium r.date label
            "rheology shifted more than 20% from 3-day average"
            [("cur", c), ("win_sum", w.sum)] with
          direction := some (if w.sum < c * (w.length : ℤ) then Dir.up else Dir.down) }]
      else []

/-- Modelled from the spec: rheology-shift detector over PV and YP. -/
def detectRheologyShift (hist : List DailyRecord) (i : Nat) : List Event :=
  rheoOne "PV" (fun m => m.pv) hist i ++ rheoOne "YP" (fun m => m.yp) hist i

/-- Modelled from the spec: mud-weight-up single-day absolute-delta
detector — fires on an increase above 0.3 ppg (MEDIUM). -/
def detectWeightUp (hist : List DailyRecord) (i : Nat) : List Event :=
  match prevRec hist i, hist[i]? with
  | some pr, some r =>
    match pr.mud.mudWeight, r.mud.mudWeight with
    | some p, some c =>
      if decide (3 < (c - p) * 10) then
        [mkProto .weightUp .medium r.date "mud_weight"
          "mud weight increased more than 0.3 ppg" [("prev", p), ("cur", c)]]
      else []
    | _, _ => []
  | _, _ => []

/-- Modelled from the spec: dilution detector — fires when mud weight
drops and a base-fluid-category addition occurred the same day (LOW). -/
def detectDilution (hist : List DailyRecord) (i : Nat) : List Event :=
  match prevRec hist i, hist[i]? with
  | some pr, some r =>
    match pr.mud.mudWeight, r.mud.mudWeight with
    | some p, some c =>
      if decide (c < p) &&
          r.chemicals.any (fun t => t.dir == TxnDir.add && t.category == "Base Fluid") then
        [mkProto .dilution .low r.date "mud_weight"
          "mud weight dropped with same-day base-fluid addition" [("prev", p), ("cur", c)]]
      else []
    | _, _ => []
  | _, _ => []

/-- Modelled from the spec: pH-shift single-day absolute-delta detector —
fires on a change above 0.5 units (MEDIUM). -/
def detectPhShift (hist : List DailyRecord) (i : Nat) : List Event :=
  match prevRec hist i, hist[i]? with
  | some pr, some r =>
    match pr.mud.ph, r.mud.ph with
    | some p, some c =>
      if decide (1 < |c - p| * 2) then
        [mkProto .phShift .medium r.date "ph"
          "pH shifted more than 0.5 units" [("prev", p), ("cur", c)]]
      else []
    | _, _ => []
  | _, _ => []

/-- Modelled from the spec: first-appearance detector — an item name is
flagged only on the literal first calendar date it appears for the job
(HIGH). -/
def detectNewChemical (hist : List DailyRecord) (i : Nat) : List Event :=
  match hist[i]? with
  | none => []
  | some r =>
    (r.chemicals.map (fun t => t.item)).dedup.filterMap fun x =>
      if (hist.take i).all (fun d => d.chemicals.all (fun t => !(t.item == x))) then
        some { mkProto .newChemical .high r.date x
            "chemical appeared for the first time in this job" [] with
          category := (r.chemicals.find? (fun t => t.item == x)).map (fun t => t.category) }
      else none

/-- Total quantity of the named item in one record. -/
def itemQty (r : DailyRecord) (x : String) : ℤ :=
  ((r.chemicals.filter (fun t => t.item == x)).map (fun t => t.qty)).sum

/-- Modelled from the spec: per-item spike detector — fires when the
quantity exceeds 3× the 7-day trailing average for that same item only
(MEDIUM). -/
def detectChemicalSpike (hist : List DailyRecord) (i : Nat) : List Event :=
  match hist[i]? with
  | none => []
  | some r =>
    (r.chemicals.map (fun t => t.item)).dedup.filterMap fun x =>
      let w := ((hist.take i).drop (i - 7)).filterMap fun d =>
        if d.chemicals.any (fun t => t.item == x) then some (itemQty d x) else none
      if !w.isEmpty && decide (w.sum * 3 < itemQty r x * (w.length : ℤ)) then
        some (mkProto .chemicalSpike .medium r.date x
          "chemical usage spiked versus 7-day average"
          [("qty", itemQty r x), ("win_sum", w.sum)])
      else none

/-- Modelled from the spec: large-single-loss detector — fires for a
loss-direction transaction in the downhole-loss category above 100 bbl
(HIGH). -/
def detectLargeFormationLoss (hist : List DailyRecord) (i : Nat) : List Event :=
  match hist[i]? with
  | none => []
  | some r =>
    r.chemicals.filterMap fun t =>
      if t.dir == TxnDir.loss && t.category == "Downhole Loss" && decide ((100 : ℤ) < t.qty) then
        some (mkProto .largeFormationLoss .high r.date t.item
          "large formation loss recorded" [("qty", t.qty)])
      else none

/-- Total solids-control-removal loss quantity in one record. -/
def scLoss (r : DailyRecord) : ℤ :=
  ((r.chemicals.filter (fun t => t.dir == TxnDir.loss && t.category == "SC Removal")).map (fun t => t.qty)).sum

/-- Modelled from the spec: baseline-exceedance detector — fires when
the SC-removal loss exceeds its own 7-day trailing baseline (LOW,
positive signal). -/
def detectHighSCRemoval (hist : List DailyRecord) (i : Nat) : List Event :=
  match hist[i]? with
  | none => []
  | some r =>
    let w := ((hist.take i).drop (i - 7)).filterMap fun d =>
      if d.chemicals.any (fun t => t.dir == TxnDir.loss && t.category == "SC Removal") then
        some (scLoss d)
      else none
    if r.chemicals.any (fun t => t.dir == TxnDir.loss && t.category == "SC Removal") &&
        !w.isEmpty && decide (w.sum < scLoss r * (w.length : ℤ)) then
      [mkProto .highSCRemoval .low r.date "SC Removal"
        "solids-control removal exceeded trailing baseline" [("qty", scLoss r)]]
    else []

/- ═══════════════ Detector Orchestrator ═══════════════ -/

/-- Identifiers of the detectors in the registry. -/
inductive DetectorId where
  | shakerDown
  | centrifugeDown
  | hydroDown
  | screenChange
  | centFeedChange
  | startup
  | solidsSpike
  | sandIncrease
  | lgsCreep
  | drillSolidsRise
  | rheologyShift
  | weightUp
  | dilution
  | phShift
  | newChemical
  | chemicalSpike
  | largeFormationLoss
  | highSCRemoval
deriving Repr, DecidableEq

/-- Dispatch table for the detector registry (spec §9: a registry of
small pure strategy functions `evaluate(history, index) → Event[]`). -/
def runDetector : DetectorId → List DailyRecord → Nat → List Event
  | .shakerDown => detectShakerDown
  | .centrifugeDown => detectCentrifugeDown
  | .hydroDown => detectHydroDown
  | .screenChange => detectScreenChange
  | .centFeedChange => detectCentFeedChange
  | .startup => detectStartup
  | .solidsSpike => detectSolidsSpike
  | .sandIncrease => detectSandIncrease
  | .lgsCreep => detectLgsCreep
  | .drillSolidsRise => detectDrillSolidsRise
  | .rheologyShift => detectRheologyShift
  | .weightUp => detectWeightUp
  | .dilution => detectDilution
  | .phShift => detectPhShift
  | .newChemical => detectNewChemical
  | .chemicalSpike => detectChemicalSpike
  | .largeFormationLoss => detectLargeFormationLoss
  | .highSCRemoval => detectHighSCRemoval

/-- The full detector registry, in fixed insertion order. -/
def allDetectors : List DetectorId :=
  [.shakerDown, .centrifugeDown, .hydroDown, .screenChange, .centFeedChange,
   .startup, .solidsSpike, .sandIncrease, .lgsCreep, .drillSolidsRise,
   .rheologyShift, .weightUp, .dilution, .phShift, .newChemical,
   .chemicalSpike, .largeFormationLoss, .highSCRemoval]

/-- The detectors whose firing condition compares the day under
evaluation against earlier days (trailing comparison).  Excluded are the
absolute-threshold detectors that can legitimately fire on the first
recorded day: sand-increase (absolute branch), first-appearance and
large-single-loss. -/
def trailingDetectors : List DetectorId :=
  [.shakerDown, .centrifugeDown, .hydroDown, .screenChange, .centFeedChange,
   .startup, .solidsSpike, .lgsCreep, .drillSolidsRise,
   .rheologyShift, .weightUp, .dilution, .phShift,
   .chemicalSpike, .highSCRemoval]

/-- Modelled from the spec: content-derived deterministic event ID —
job + date + kind + discriminating suffix (§9). -/
def mkEventId (job : String) (date : Int) (k : EventKind) (disc : String) : String :=
  job ++ "-" ++ toString date ++ "-" ++ kindStr k ++
    (if disc == "" then "" else "-" ++ disc)

/-- Assigns the deterministic ID to a detector-emitted event. -/
def assignId (job : String) (e : Event) : Event :=
  { e with id := mkEventId job e.date e.kind e.disc }

/-- Rank used for the severity-descending sort key (HIGH first). -/
def sevRank : Severity → Nat
  | .high => 0
  | .medium => 1
  | .low => 2

/-- Orchestrator sort order: date ascending, then severity descending;
the stable insertion sort keeps insertion order as the final
tie-break. -/
def evLE (a b : Event) : Prop :=
  a.date < b.date ∨ (a.date = b.date ∧ sevRank a.severity ≤ sevRank b.severity)

instance (a b : Event) : Decidable (evLE a b) :=
  inferInstanceAs (Decidable (a.date < b.date ∨
    (a.date = b.date ∧ sevRank a.severity ≤ sevRank b.severity)))

/-- Modelled from the spec: the Detector Orchestrator (§4.2) — runs every
detector at every index, assigns deterministic IDs, and returns the list
sorted by date ascending then severity descending then insertion
order. -/
def detectEvents (job : String) (hist : List DailyRecord) : List Event :=
  List.insertionSort evLE
    ((((List.range hist.length).map fun i =>
      (allDetectors.map fun d => runDetector d hist i).flatten).flatten).map
        (assignId job))

/- ═══════════════ Causal Linker ═══════════════ -/

/-- A causal link between a cause event and an effect event. -/
structure CausalLink where
  cause_event_id : String
  effect_event_id : String
  rule_name : String
  confidence : Confidence
  explanation : String
deriving Repr, DecidableEq

/-- Modelled from the spec: one windowed pairing rule (§4.3) — cause
kinds, effect kind (with an optional required direction), the inclusive
day-offset window `lo..hi` (effect date minus cause date), the resulting
confidence, and whether the cause must be a weighting-agent addition
(the `weight_up_operation` rule, whose cause is an inventory event in
the weighting-agent category). -/
structure Rule where
  name : String
  causeKinds : List EventKind
  causeWeighting : Bool
  effectKind : EventKind
  effectDir : Option Dir
  lo : Int
  hi : Int
  conf : Confidence
deriving Repr, DecidableEq

/-- Modelled from the spec: the fixed closed set of seven causal rules
(§4.3). -/
def RULES : List Rule :=
  [{ name := "screen_failure_from_solids",
     causeKinds := [.solidsSpike, .sandIncrease], causeWeighting := false,
     effectKind := .shakerDown, effectDir := none, lo := 0, hi := 1, conf := .high },
   { name := "lgs_from_centrifuge_down",
     causeKinds := [.centrifugeDown], causeWeighting := false,
     effectKind := .lgsCreep, effectDir := none, lo := 1, hi := 3, conf := .high },
   { name := "rheology_from_new_chemical",
     causeKinds := [.newChemical], causeWeighting := false,
     effectKind := .rheologyShift, effectDir := none, lo := 0, hi := 1, conf := .high },
   { name := "rheology_from_lgs",
     causeKinds := [.lgsCreep], causeWeighting := false,
     effectKind := .rheologyShift, effectDir := some .up, lo := 0, hi := 3, conf := .medium },
   { name := "weight_up_operation",
     causeKinds := [.newChemical, .chemicalSpike], causeWeighting := true,
     effectKind := .weightUp, effectDir := none, lo := 0, hi := 0, conf := .high },
   { name := "screen_change_preventive",
     causeKinds := [.sandIncrease], causeWeighting := false,
     effectKind := .screenChange, effectDir := none, lo := 1, hi := 3, conf := .medium },
   { name := "dilution_effective",
     causeKinds := [.dilution], causeWeighting := false,
     effectKind := .rheologyShift, effectDir := some .down, lo := 0, hi := 1, conf := .medium }]

/-- Does the event qualify as a cause for the rule? -/
def ruleCauseMatches (r : Rule) (e : Event) : Bool :=
  r.causeKinds.contains e.kind &&
    (!r.causeWeighting || e.category == some "Weighting Agent")

/-- Does the event qualify as an effect for the rule? -/
def ruleEffectMatches (r : Rule) (e : Event) : Bool :=
  e.kind == r.effectKind &&
    (match r.effectDir with
     | none => true
     | some d => e.direction == some d)

/-- Day offset between an effect event and a cause event. -/
def evDist (c e : Event) : Int := e.date - c.date

/-- Candidate causes for a rule and effect: events whose kind matches
the rule and whose date falls in the rule's inclusive offset window. -/
def candidates (r : Rule) (e : Event) (evs : List Event) : List Event :=
  evs.filter fun c =>
    ruleCauseMatches r c && decide (r.lo ≤ evDist c e) && decide (evDist c e ≤ r.hi)

/-- Modelled from the spec: closest-in-time candidate selection; the
fold keeps the earlier candidate on distance ties, so ties break to the
candidate occurring earliest in the sorted event list. -/
def pickClosest (e : Event) : List Event → Option Event
  | [] => none
  | c :: cs => some (cs.foldl (fun b x => if evDist x e < evDist b e then x else b) c)

/-- The link emitted for a rule, cause and effect. -/
def mkLink (r : Rule) (c e : Event) : CausalLink :=
  { cause_event_id := c.id, effect_event_id := e.id, rule_name := r.name,
    confidence := r.conf,
    explanation := kindStr c.kind ++ " preceding " ++ kindStr e.kind }

/-- Links produced for one candidate effect event: for every rule whose
effect kind matches, the closest qualifying cause, if any. -/
def linksFor (evs : List Event) (e : Event) : List CausalLink :=
  RULES.filterMap fun r =>
    if ruleEffectMatches r e then
      match pickClosest e (candidates r e evs) with
      | some c => some (mkLink r c e)
      | none => none
    else none

/-- The (cause id, effect id, rule name) triple of a link. -/
def linkTriple (l : CausalLink) : String × String × String :=
  (l.cause_event_id, l.effect_event_id, l.rule_name)

/-- Appends a link unless its triple was already emitted. -/
def addLink (acc : List CausalLink) (l : CausalLink) : List CausalLink :=
  if (acc.map linkTriple).contains (linkTriple l) then acc else acc ++ [l]

/-- Deduplicates links on their (cause, effect, rule) triple, keeping
first occurrences. -/
def dedupTriples (ls : List CausalLink) : List CausalLink :=
  ls.foldl addLink []

/-- Modelled from the spec: the Causal Linker (§4.3) — for every
candidate effect event and every matching rule, link the closest
qualifying cause; the same (cause, effect, rule) triple is never emitted
twice. -/
def linkEvents (evs : List Event) : List CausalLink :=
  dedupTriples ((evs.map (linksFor evs)).flatten)

/-- Appends an id to an event's related-event-id list unless already
present. -/
def addRelated (x : String) (e : Event) : Event :=
  if e.related.contains x then e else { e with related := e.related ++ [x] }

/-- Back-fills one link's cross-references bidirectionally. -/
def applyLink (evs : List Event) (l : CausalLink) : List Event :=
  evs.map fun e =>
    if e.id == l.cause_event_id then addRelated l.effect_event_id e
    else if e.id == l.effect_event_id then addRelated l.cause_event_id e
    else e

/-- Back-fills every link's cross-references. -/
def applyLinks (evs : List Event) (ls : List CausalLink) : List Event :=
  ls.foldl applyLink evs

/-- The full pipeline: detect, link, back-fill cross-references. -/
def detectAndLink (job : String) (hist : List DailyRecord) :
    List Event × List CausalLink :=
  let evs := detectEvents job hist
  let links := linkEvents evs
  (applyLinks evs links, links)

/- ═══════════════ Frontend models (from frontend/src) ═══════════════ -/

/-- One insight item as consumed by `EventCards` (fields used by the
rendering decision). -/
structure InsightItem where
  severity : String
  title : String
  narrative : String
  recommendation : String
deriving Repr, DecidableEq

/-- Rendered shape of the `EventCards` panel: either the zero-insight
fallback text or the list of insight cards. -/
inductive CardsView where
  | fallback (msg : String)
  | cards (summary : String) (n : Nat)
deriving Repr, DecidableEq

/-- From `EventCards.tsx`: with no insights the panel shows the summary
string, falling back to the normal-operations message when the summary
is empty (the JS `summary \x7c\x7c fallback` on a falsy empty string);
otherwise it shows the card list. -/
def eventCardsView (insights : List InsightItem) (summary : String) : CardsView :=
  if insights.isEmpty then
    CardsView.fallback (if summary == "" then "Normal operations — no events detected." else summary)
  else
    CardsView.cards summary insights.length

/-- A chemical-transaction entry as consumed by the frontend
(`ChemicalEntry` of the insights API; nullable fields are Options). -/
structure ChemicalEntry where
  item : String
  add_loss : Option String
  quantity : Option ℚ
  units : String
  category : Option String
deriving Repr, DecidableEq

/-- Equipment sub-objects of a frontend timeline day. -/
structure FShaker where
  name : String
  hours : Option ℚ
deriving Repr, DecidableEq

/-- A frontend centrifuge entry. -/
structure FCentrifuge where
  name : String
  hours : Option ℚ
deriving Repr, DecidableEq

/-- The frontend equipment record: shaker and centrifuge lists plus the
hydrocyclone record keyed by unit name. -/
structure FEquipment where
  shakers : List FShaker
  centrifuges : List FCentrifuge
  hydrocyclones : List (String × Option ℚ)
deriving Repr, DecidableEq

/-- The frontend mud-property record (fields used by the sparkline
extractors). -/
structure FMud where
  solids : Option ℚ
  sand : Option ℚ
  lgs : Option ℚ
  drill_solids : Option ℚ
  pv : Option ℚ
  yp : Option ℚ
  mud_weight : Option ℚ
  ph : Option ℚ
deriving Repr, DecidableEq

/-- One frontend `TimelineDay` (fields used by TrendCharts and
EventSparkline). -/
structure TimelineDay where
  date : String
  mud_properties : Option FMud
  equipment : Option FEquipment
  chemicals : List ChemicalEntry
deriving Repr, DecidableEq

/- ── TrendCharts chemical aggregation (src/unnamed/part_002) ── -/

/-- From TrendCharts: `chem.category \x7c\x7c 'Generic/Unknown'` — a
missing or empty category buckets as Generic/Unknown. -/
def catOf (c : ChemicalEntry) : String :=
  match c.category with
  | some s => if s == "" then "Generic/Unknown" else s
  | none => "Generic/Unknown"

/-- From TrendCharts: a transaction contributes only when its add_loss
field lowercases to the string add. -/
def isAdd (c : ChemicalEntry) : Bool :=
  match c.add_loss with
  | some s => s.toLower == "add"
  | none => false

/-- From TrendCharts: `chem.quantity \x7c\x7c 0`. -/
def qtyOr0 (c : ChemicalEntry) : ℚ := c.quantity.getD 0

/-- Adds a quantity into the per-category row (the JS
`row[cat] = (row[cat] \x7c\x7c 0) + q` on an object literal). -/
def bump : List (String × ℚ) → String → ℚ → List (String × ℚ)
  | [], cat, q => [(cat, q)]
  | (k, v) :: rest, cat, q =>
    if k == cat then (k, v + q) :: rest else (k, v) :: bump rest cat q

/-- From TrendCharts `chemData`: one day's stacked-bar row, aggregating
add-direction quantities by category. -/
def chemRow (day : TimelineDay) : List (String × ℚ) :=
  day.chemicals.foldl
    (fun row c => if isAdd c then bump row (catOf c) (qtyOr0 c) else row) []

/-- Value of one category bar in a row (0 when absent). -/
def rowVal (row : List (String × ℚ)) (cat : String) : ℚ :=
  (row.lookup cat).getD 0

/-- From TrendCharts: the ±3-day window around the selected date
(`slice(start, end)` with `center = dateIdx ≥ 0 ? dateIdx : length−1`). -/
def chemWindow (timeline : List TimelineDay) (selectedDate : Option String) :
    List TimelineDay :=
  let center := match selectedDate.bind (fun s => timeline.findIdx? (fun d => d.date == s)) with
    | some i => i
    | none => timeline.length - 1
  let start := center - 3
  let stop := min timeline.length (center + 4)
  (timeline.drop start).take (stop - start)

/-- From TrendCharts: the category set collected over the window's
add-direction transactions. -/
def chemCategoriesRaw (window : List TimelineDay) : List String :=
  (window.foldl
    (fun acc day => day.chemicals.foldl
      (fun a c => if isAdd c then (if a.contains (catOf c) then a else a ++ [catOf c]) else a)
      acc) []).dedup

/-- From TrendCharts: `Array.from(categorySet).sort()`. -/
def chemCategories (window : List TimelineDay) : List String :=
  List.insertionSort (fun a b => a ≤ b) (chemCategoriesRaw window)

/- ── EventSparkline (frontend/src/components/EventSparkline.tsx) ── -/

/-- The values-map fields `getExtractors` reads. -/
structure SparkValues where
  shaker : Option String
  centrifuge : Option String
  equipment : Option String
  unitField : Option String
deriving Repr, DecidableEq

/-- From EventSparkline: what an extractor reads from a timeline day
(the closures of the TypeScript, embedded as data and interpreted by
`applyExtractor`). -/
inductive ExtractField where
  | mudSolids
  | mudSand
  | mudLgs
  | mudDrillSolids
  | mudPv
  | mudYp
  | mudWeight
  | mudPh
  | shakerHoursOf (name : String)
  | centrifugeHoursOf (name : String)
  | hydroHoursOf (unitName : String)
deriving Repr, DecidableEq

/-- A sparkline series extractor: label, unit label and field. -/
structure SparkExtractor where
  label : String
  unitLabel : String
  field : ExtractField
deriving Repr, DecidableEq

/-- From EventSparkline `_shakerHours`. -/
def fShakerHours (d : TimelineDay) (name : String) : Option ℚ :=
  ((d.equipment.map (fun e => e.shakers)).getD []).find? (fun s => s.name == name)
    |>.bind (fun s => s.hours)

/-- From EventSparkline `_centrifugeHours`. -/
def fCentrifugeHours (d : TimelineDay) (name : String) : Option ℚ :=
  ((d.equipment.map (fun e => e.centrifuges)).getD []).find? (fun s => s.name == name)
    |>.bind (fun s => s.hours)

/-- From EventSparkline `_hydroHours`. -/
def fHydroHours (d : TimelineDay) (u : String) : Option ℚ :=
  ((d.equipment.map (fun e => e.hydrocyclones)).getD []).lookup u |>.join

/-- Interpreter for the embedded extractor closures. -/
def applyExtractor (f : ExtractField) (d : TimelineDay) : Option ℚ :=
  match f with
  | .mudSolids => d.mud_properties.bind (fun m => m.solids)
  | .mudSand => d.mud_properties.bind (fun m => m.sand)
  | .mudLgs => d.mud_properties.bind (fun m => m.lgs)
  | .mudDrillSolids => d.mud_properties.bind (fun m => m.drill_solids)
  | .mudPv => d.mud_properties.bind (fun m => m.pv)
  | .mudYp => d.mud_properties.bind (fun m => m.yp)
  | .mudWeight => d.mud_properties.bind (fun m => m.mud_weight)
  | .mudPh => d.mud_properties.bind (fun m => m.ph)
  | .shakerHoursOf n => fShakerHours d n
  | .centrifugeHoursOf n => fCentrifugeHours d n
  | .hydroHoursOf u => fHydroHours d u

/-- From EventSparkline: the static extractor table for mud-property
event types. -/
def MUD_EXTRACTORS : List (String × List SparkExtractor) :=
  [("solids_spike", [{ label := "Solids", unitLabel := "%", field := .mudSolids }]),
   ("sand_increase", [{ label := "Sand", unitLabel := "%", field := .mudSand }]),
   ("lgs_creep", [{ label := "LGS", unitLabel := "%", field := .mudLgs }]),
   ("drill_solids_rise", [{ label := "Drill Solids", unitLabel := "%", field := .mudDrillSolids }]),
   ("rheology_shift", [{ label := "PV", unitLabel := "cP", field := .mudPv },
                       { label := "YP", unitLabel := "lb", field := .mudYp }]),
   ("weight_up", [{ label := "MW", unitLabel := "ppg", field := .mudWeight }]),
   ("dilution", [{ label := "MW", unitLabel := "ppg", field := .mudWeight }]),
   ("ph_shift", [{ label := "pH", unitLabel := "", field := .mudPh }])]

/-- From EventSparkline: `values?.shaker ?? values?.centrifuge ??
values?.equipment ?? ''` (nullish coalescing: an empty string is kept,
only null/undefined fall through). -/
def equipNameOf (v : Option SparkValues) : String :=
  (((v.bind (fun x => x.shaker)).or (v.bind (fun x => x.centrifuge))).or
    (v.bind (fun x => x.equipment))).getD ""

/-- From EventSparkline: `values?.unit ?? ''`. -/
def unitNameOf (v : Option SparkValues) : String :=
  (v.bind (fun x => x.unitField)).getD ""

/-- The JS `unitName.replace('_', ' ')`: replaces the first underscore
only. -/
def replaceFirstUnderscore (s : String) : String :=
  match s.splitOn "_" with
  | [] => s
  | [a] => a
  | a :: b :: rest => a ++ " " ++ String.intercalate "_" (b :: rest)

/-- From EventSparkline `getExtractors`: static mud mapping first; then
equipment events need a non-empty equipment (or unit) name from the
values map; anything else yields null. -/
def getExtractors (eventType : String) (v : Option SparkValues) :
    Option (List SparkExtractor) :=
  match MUD_EXTRACTORS.lookup eventType with
  | some exts => some exts
  | none =>
    let equipName := equipNameOf v
    let unitName := unitNameOf v
    if eventType == "shaker_down" || eventType == "screen_change" ||
        eventType == "equipment_startup" then
      if equipName != "" then
        some [{ label := equipName, unitLabel := "hrs", field := .shakerHoursOf equipName }]
      else none
    else if eventType == "centrifuge_down" || eventType == "centrifuge_feed_change" then
      if equipName != "" then
        some [{ label := equipName, unitLabel := "hrs", field := .centrifugeHoursOf equipName }]
      else none
    else if eventType == "hydrocyclone_down" then
      if unitName != "" then
        some [{ label := replaceFirstUnderscore unitName, unitLabel := "hrs",
                field := .hydroHoursOf unitName }]
      else none
    else none

/-- From EventSparkline: the clamped ±3-day window around the selected
date and the in-window index of that date (window empty and index −1
when the date is absent from the timeline). -/
def sparkWindow (timeline : List TimelineDay) (selectedDate : String) :
    List TimelineDay × Int :=
  match timeline.findIdx? (fun d => d.date == selectedDate) with
  | none => ([], -1)
  | some i =>
    let start := i - 3
    let stop := min (timeline.length - 1) (i + 3)
    ((timeline.drop start).take (stop + 1 - start), (i : Int) - (start : Int))

/-- One rendered sparkline series: extractor plus its per-day points. -/
structure SparkSeries where
  ext : SparkExtractor
  points : List (String × Option ℚ)
deriving Repr, DecidableEq

/-- From EventSparkline: the component returns null when the extractors
are null, the window has fewer than 2 days, or the selected date is
absent; otherwise it renders one series per extractor. -/
def eventSparkline (eventType : String) (v : Option SparkValues)
    (timeline : List TimelineDay) (selectedDate : String) :
    Option (List SparkSeries) :=
  match getExtractors eventType v with
  | none => none
  | some exts =>
    let wc := sparkWindow timeline selectedDate
    if wc.1.length < 2 || wc.2 < 0 then none
    else some (exts.map fun ext =>
      { ext := ext,
        points := wc.1.map fun d => (d.date, applyExtractor ext.field d) })

/- ═══════════════ Concrete fixtures for witnesses ═══════════════ -/

/-- An event with default fields, for concrete examples. -/
def mkEv (id : String) (k : EventKind) (d : Int) : Event :=
  { id := id, kind := k, severity := .medium, date := d, disc := "",
    description := "", values := [], direction := none, category := none,
    related := [] }

/-- A concrete new-chemical event on day 5. -/
def demoNc : Event := mkEv "nc5" EventKind.newChemical 5

/-- A concrete LGS-creep event on day 4. -/
def demoLgs : Event := mkEv "lgs4" EventKind.lgsCreep 4

/-- A concrete upward rheology-shift event on day 5. -/
def demoRheo : Event :=
  { mkEv "rheo5" EventKind.rheologyShift 5 with direction := some Dir.up }

/-- Three events: a new-chemical cause, an LGS-creep cause, and one
upward rheology-shift effect reachable from both rules. -/
def demoEvs : List Event := [demoNc, demoLgs, demoRheo]

/-- The rheology-from-new-chemical rule, as listed in RULES. -/
def demoRule : Rule :=
  { name := "rheology_from_new_chemical",
    causeKinds := [EventKind.newChemical], causeWeighting := false,
    effectKind := EventKind.rheologyShift, effectDir := none,
    lo := 0, hi := 1, conf := Confidence.high }

/-- The causal link the demo events produce under `demoRule`. -/
def demoLink : CausalLink :=
  { cause_event_id := "nc5", effect_event_id := "rheo5",
    rule_name := "rheology_from_new_chemical", confidence := Confidence.high,
    explanation := "new_chemical preceding rheology_shift" }

/-- A daily record holding only a single shaker's hours. -/
def shakerDay (dt : Int) (h : Option ℤ) : DailyRecord :=
  { date := dt, shakers := [{ name := "S1", hours := h, mesh := none }],
    centrifuges := [], desanderHours := none, desilterHours := none,
    mudCleanerHours := none,
    mud := { solids := none, sand := none, lgs := none, drillSolids := none,
             pv := none, yp := none, mudWeight := none, ph := none },
    chemicals := [] }

/-- The spec scenario history: shaker hours 18, 18, 6. -/
def demoHist : List DailyRecord :=
  [shakerDay 1 (some 18), shakerDay 2 (some 18), shakerDay 3 (some 6)]

/-- A steady-idle history: the shaker reads 0 hours on both days. -/
def idleHist : List DailyRecord :=
  [shakerDay 1 (some 0), shakerDay 2 (some 0)]

/-- A record with empty unit lists, all-null properties and no
transactions. -/
def nullDay (dt : Int) : DailyRecord :=
  { date := dt, shakers := [], centrifuges := [], desanderHours := none,
    desilterHours := none, mudCleanerHours := none,
    mud := { solids := none, sand := none, lgs := none, drillSolids := none,
             pv := none, yp := none, mudWeight := none, ph := none },
    chemicals := [] }

/-- An event stripped of its related-event-id list, for frame
statements about the Causal Linker. -/
def stripRelated (e : Event) : Event := { e with related := [] }

/-- A concrete frontend day with mixed add/loss transactions. -/
def demoDay1 : TimelineDay :=
  { date := "2026-02-01", mud_properties := none, equipment := none,
    chemicals := [{ item := "Barita", add_loss := some "Add", quantity := some 10,
                    units := "sx", category := some "Weighting Agent" },
                  { item := "Water", add_loss := some "Loss", quantity := some 99,
                    units := "bbl", category := none },
                  { item := "Gel", add_loss := some "add", quantity := some 5,
                    units := "sx", category := none }] }

/-- A second concrete frontend day. -/
def demoDay2 : TimelineDay :=
  { date := "2026-02-02", mud_properties := none, equipment := none,
    chemicals := [{ item := "Gel", add_loss := some "ADD", quantity := some 2,
                    units := "sx", category := some "Viscosifier" }] }

/-- A two-day frontend timeline. -/
def demoTimeline : List TimelineDay := [demoDay1, demoDay2]
/-- The event `detectEvents` emits on the demo history. -/
def demoDetected : Event :=
  { mkProto EventKind.shakerDown Severity.high 3 "S1"
      "shaker hours dropped versus trailing average"
      [("hours", 6), ("win_sum", 36)] with id := "J-3-shaker_down-S1" }

/- ═══════════════ Helper lemmas ═══════════════ -/
/- ═══════════════ Helper lemmas ═══════════════ -/

theorem rowVal_cons (k : String) (v : ℚ) (rest : List (String × ℚ)) (c : String) :
    rowVal ((k, v) :: rest) c = if c = k then v else rowVal rest c := by
  by_cases h : c = k
  · simp [rowVal, List.lookup, h]
  · have h2 : (c == k) = false := beq_eq_false_iff_ne.mpr h
    simp [rowVal, List.lookup, h, h2]

theorem rowVal_bump (row : List (String × ℚ)) (cat : String) (q : ℚ) (cat' : String) :
    rowVal (bump row cat q) cat' = rowVal row cat' + (if cat = cat' then q else 0) := by
  induction row with
  | nil =>
    have hb : bump [] cat q = [(cat, q)] := rfl
    rw [hb, rowVal_cons]
    by_cases h : cat = cat'
    · simp [h, rowVal, List.lookup]
    · have h' : ¬(cat' = cat) := fun hh => h hh.symm
      simp [h, h', rowVal, List.lookup]
  | cons kv rest ih =>
    obtain ⟨k, v⟩ := kv
    by_cases hk : k = cat
    · subst hk
      have hb : bump ((k, v) :: rest) k q = (k, v + q) :: rest := by simp [bump]
      rw [hb, rowVal_cons, rowVal_cons]
      by_cases h : cat' = k
      · simp [h, add_assoc]
      · have h' : ¬(k = cat') := fun hh => h hh.symm
        simp [h, h']
    · have hb : bump ((k, v) :: rest) cat q = (k, v) :: bump rest cat q := by
        simp [bump, hk]
      rw [hb, rowVal_cons, rowVal_cons]
      by_cases h : cat' = k
      · subst h
        have h2 : ¬(cat = cat') := fun hh => hk hh.symm
        simp [h2]
      · simp [h, ih, add_assoc]

theorem rowVal_chem_foldl (entries : List ChemicalEntry)
    (row0 : List (String × ℚ)) (cat : String) :
    rowVal (entries.foldl
        (fun row c => if isAdd c then bump row (catOf c) (qtyOr0 c) else row) row0) cat =
      rowVal row0 cat +
        ((entries.filter (fun c => isAdd c && catOf c == cat)).map qtyOr0).sum := by
  induction entries generalizing row0 with
  | nil => simp
  | cons c rest ih =>
    by_cases hc : isAdd c
    · by_cases hcat : catOf c = cat <;>
        simp [hc, hcat, ih, rowVal_bump] <;> ring
    · simp [hc, ih]

theorem lookup_none_of_not_mem_keys {β : Type} (l : List (String × β)) (a : String)
    (h : a ∉ l.map Prod.fst) : l.lookup a = none := by
  induction l with
  | nil => rfl
  | cons kv rest ih =>
    obtain ⟨k, v⟩ := kv
    simp only [List.map_cons, List.mem_cons, not_or] at h
    have hk : (a == k) = false := beq_eq_false_iff_ne.mpr h.1
    simp [List.lookup, hk, ih h.2]

theorem linksFor_singleton (e : Event) : linksFor [e] e = [] := by
  unfold linksFor
  rw [List.filterMap_eq_nil_iff]
  intro r hr
  by_cases hm : ruleEffectMatches r e = true
  · have hkind : e.kind = r.effectKind := by
      unfold ruleEffectMatches at hm
      simp only [Bool.and_eq_true, beq_iff_eq] at hm
      exact hm.1
    have hnotmem : e.kind ∉ r.causeKinds := by
      fin_cases hr <;> rw [hkind] <;> decide
    have hcand : candidates r e [e] = [] := by
      simp [candidates, ruleCauseMatches, hnotmem]
    simp [hm, hcand, pickClosest]
  · simp [hm]

/- ═══════════════ Claim theorems ═══════════════ -/

/-- C8: a day with zero Events is a valid, non-error state — the Causal
Linker returns an empty CausalLink list on an empty or singleton Event
list, and the EventCards rendering for zero insights is the defined
normal-operations fallback message rather than an error. -/
theorem c8_no_events_is_valid :
    linkEvents [] = [] ∧ (∀ e : Event, linkEvents [e] = []) ∧
    eventCardsView [] "" =
      CardsView.fallback "Normal operations — no events detected." := by
  refine ⟨rfl, ?_, rfl⟩
  intro e
  simp [linkEvents, linksFor_singleton, dedupTriples]

/-- C9: the TrendCharts chemical stacked-bar row sums a transaction's
quantity into its category exactly when the transaction's add_loss field
lowercases to the string add (so loss-direction transactions never
contribute to any bar), with a missing category bucketed as
Generic/Unknown via `catOf`, and the category list is returned
sorted. -/
theorem c9_chem_aggregation (timeline : List TimelineDay) (sel : Option String)
    (day : TimelineDay) (cat : String) (_hday : day ∈ chemWindow timeline sel) :
    rowVal (chemRow day) cat =
      ((day.chemicals.filter (fun c => isAdd c && catOf c == cat)).map qtyOr0).sum ∧
    (chemCategories (chemWindow timeline sel)).Sorted (fun a b => a ≤ b) := by
  constructor
  · simpa [chemRow, rowVal, List.lookup] using rowVal_chem_foldl day.chemicals [] cat
  · exact List.sorted_insertionSort _ _

/-- Witness for C9 at a concrete two-day timeline. -/
theorem c9_chem_aggregation_witness :
    demoDay1 ∈ chemWindow demoTimeline none ∧
    (rowVal (chemRow demoDay1) "Generic/Unknown" =
      ((demoDay1.chemicals.filter
          (fun c => isAdd c && catOf c == "Generic/Unknown")).map qtyOr0).sum ∧
     (chemCategories (chemWindow demoTimeline none)).Sorted (fun a b => a ≤ b)) :=
  ⟨by decide, c9_chem_aggregation demoTimeline none demoDay1 "Generic/Unknown" (by decide)⟩

/-- C10: EventSparkline is total — `getExtractors` returns none for
event types outside the mud mapping that lack an equipment or unit name,
and the component renders nothing when the extractors are none, the
selected date is absent from the timeline, or the clamped window has
fewer than 2 days. -/
theorem c10_sparkline_total :
    (∀ et v, et ∉ MUD_EXTRACTORS.map Prod.fst → equipNameOf v = "" →
      unitNameOf v = "" → getExtractors et v = none) ∧
    (∀ et v tl sel, getExtractors et v = none → eventSparkline et v tl sel = none) ∧
    (∀ et v tl sel, tl.findIdx? (fun d => d.date == sel) = none →
      eventSparkline et v tl sel = none) ∧
    (∀ et v tl sel, (sparkWindow tl sel).1.length < 2 →
      eventSparkline et v tl sel = none) := by
  refine ⟨?_, ?_, ?_, ?_⟩
  · intro et v hmem heq hunit
    have hl := lookup_none_of_not_mem_keys MUD_EXTRACTORS et hmem
    simp [getExtractors, hl, heq, hunit]
  · intro et v tl sel h
    simp [eventSparkline, h]
  · intro et v tl sel h
    cases hge : getExtractors et v <;>
      simp [eventSparkline, hge, sparkWindow, h]
  · intro et v tl sel h
    cases hge : getExtractors et v <;> simp [eventSparkline, hge, h]

/-- Witness for C10 at concrete inputs: an unknown event type with an
empty values map yields no extractors, and a date absent from the
timeline renders nothing. -/
theorem c10_sparkline_total_witness :
    getExtractors "mystery_event"
        (some { shaker := none, centrifuge := none, equipment := none,
                unitField := none }) = none ∧
    eventSparkline "weight_up" none demoTimeline "2026-03-01" = none :=
  ⟨c10_sparkline_total.1 "mystery_event" _ (by decide) (by decide) (by decide),
   c10_sparkline_total.2.2.1 "weight_up" none demoTimeline "2026-03-01" (by decide)⟩

theorem pickFold_spec (e : Event) (cs : List Event) : ∀ acc r : Event,
    cs.foldl (fun b x => if evDist x e < evDist b e then x else b) acc = r →
    ((r = acc ∧ ∀ x ∈ cs, evDist acc e ≤ evDist x e) ∨
     (∃ pre suf, cs = pre ++ r :: suf ∧ evDist r e < evDist acc e ∧
        (∀ p ∈ pre, evDist r e < evDist p e) ∧
        (∀ s ∈ suf, evDist r e ≤ evDist s e))) := by
  induction cs with
  | nil =>
    intro acc r h
    left
    exact ⟨h.symm, by simp⟩
  | cons x cs ih =>
    intro acc r h
    rw [List.foldl_cons] at h
    by_cases hx : evDist x e < evDist acc e
    · rw [if_pos hx] at h
      rcases ih x r h with ⟨hra, hall⟩ | ⟨pre, suf, hsplit, hlt, hpre, hsuf⟩
      · subst hra
        right
        refine ⟨[], cs, by simp, hx, by simp, hall⟩
      · right
        refine ⟨x :: pre, suf, by simp [hsplit], lt_trans hlt hx, ?_, hsuf⟩
        intro p hp
        rcases List.mem_cons.mp hp with hpx | hpp
        · exact hpx ▸ hlt
        · exact hpre p hpp
    · rw [if_neg hx] at h
      have hax : evDist acc e ≤ evDist x e := not_lt.mp hx
      rcases ih acc r h with ⟨hra, hall⟩ | ⟨pre, suf, hsplit, hlt, hpre, hsuf⟩
      · left
        refine ⟨hra, ?_⟩
        intro y hy
        rcases List.mem_cons.mp hy with hyx | hyy
        · exact hyx ▸ hax
        · exact hall y hyy
      · right
        refine ⟨x :: pre, suf, by simp [hsplit], hlt, ?_, hsuf⟩
        intro p hp
        rcases List.mem_cons.mp hp with hpx | hpp
        · exact hpx ▸ lt_of_lt_of_le hlt hax
        · exact hpre p hpp

theorem pickClosest_spec (e : Event) (cands : List Event) (c : Event)
    (h : pickClosest e cands = some c) :
    ∃ pre suf, cands = pre ++ c :: suf ∧
      (∀ p ∈ pre, evDist c e < evDist p e) ∧
      (∀ s ∈ suf, evDist c e ≤ evDist s e) := by
  cases cands with
  | nil => exact absurd h (by simp [pickClosest])
  | cons a cs =>
    have hfold : cs.foldl (fun b x => if evDist x e < evDist b e then x else b) a = c := by
      simpa [pickClosest] using h
    rcases pickFold_spec e cs a c hfold with ⟨hra, hall⟩ | ⟨pre, suf, hsplit, hlt, hpre, hsuf⟩
    · exact ⟨[], cs, by simp [hra], by simp, by simpa [hra] using hall⟩
    · refine ⟨a :: pre, suf, by simp [hsplit], ?_, hsuf⟩
      intro p hp
      rcases List.mem_cons.mp hp with hpa | hpp
      · exact hpa ▸ hlt
      · exact hpre p hpp

theorem pickClosest_mem (e : Event) (cands : List Event) (c : Event)
    (h : pickClosest e cands = some c) : c ∈ cands := by
  rcases pickClosest_spec e cands c h with ⟨pre, suf, hsplit, _, _⟩
  rw [hsplit]
  exact List.mem_append.mpr (Or.inr (List.mem_cons_self c suf))

theorem mem_addLink (x : CausalLink) (acc : List CausalLink) (l : CausalLink)
    (h : x ∈ addLink acc l) : x ∈ acc ∨ x = l := by
  unfold addLink at h
  by_cases hc : ((acc.map linkTriple).contains (linkTriple l)) = true
  · rw [if_pos hc] at h
    exact Or.inl h
  · rw [if_neg hc] at h
    rcases List.mem_append.mp h with ha | hb
    · exact Or.inl ha
    · exact Or.inr (List.mem_singleton.mp hb)

theorem mem_dedup_fold (ls : List CausalLink) : ∀ acc x,
    x ∈ ls.foldl addLink acc → x ∈ acc ∨ x ∈ ls := by
  induction ls with
  | nil =>
    intro acc x h
    exact Or.inl h
  | cons l ls ih =>
    intro acc x h
    rw [List.foldl_cons] at h
    rcases ih (addLink acc l) x h with hacc | hls
    · rcases mem_addLink x acc l hacc with ha | hl
      · exact Or.inl ha
      · exact Or.inr (hl ▸ List.mem_cons_self l ls)
    · exact Or.inr (List.mem_cons_of_mem l hls)

theorem mem_dedupTriples (ls : List CausalLink) (x : CausalLink)
    (h : x ∈ dedupTriples ls) : x ∈ ls := by
  rcases mem_dedup_fold ls [] x h with hnil | hls
  · exact absurd hnil (List.not_mem_nil x)
  · exact hls

theorem nodup_addLink (acc : List CausalLink) (l : CausalLink)
    (h : (acc.map linkTriple).Nodup) : ((addLink acc l).map linkTriple).Nodup := by
  unfold addLink
  by_cases hc : ((acc.map linkTriple).contains (linkTriple l)) = true
  · rw [if_pos hc]
    exact h
  · rw [if_neg hc]
    have hnm : linkTriple l ∉ acc.map linkTriple := by
      intro hm
      exact hc (List.elem_eq_true_of_mem hm)
    rw [List.map_append]
    rw [List.nodup_append]
    refine ⟨h, List.nodup_singleton _, ?_⟩
    intro t ht h1
    rw [List.map_singleton, List.mem_singleton] at h1
    exact hnm (h1 ▸ ht)

theorem nodup_dedup_fold (ls : List CausalLink) : ∀ acc,
    (acc.map linkTriple).Nodup → ((ls.foldl addLink acc).map linkTriple).Nodup := by
  induction ls with
  | nil =>
    intro acc h
    exact h
  | cons l ls ih =>
    intro acc h
    rw [List.foldl_cons]
    exact ih (addLink acc l) (nodup_addLink acc l h)

theorem triple_mem_addLink (acc : List CausalLink) (l : CausalLink) :
    linkTriple l ∈ (addLink acc l).map linkTriple := by
  unfold addLink
  by_cases hc : ((acc.map linkTriple).contains (linkTriple l)) = true
  · rw [if_pos hc]
    exact List.mem_of_elem_eq_true hc
  · rw [if_neg hc]
    simp

theorem triple_mono_addLink (acc : List CausalLink) (l : CausalLink)
    (t : String × String × String) (h : t ∈ acc.map linkTriple) :
    t ∈ (addLink acc l).map linkTriple := by
  unfold addLink
  by_cases hc : ((acc.map linkTriple).contains (linkTriple l)) = true
  · rw [if_pos hc]
    exact h
  · rw [if_neg hc]
    rw [List.map_append]
    exact List.mem_append.mpr (Or.inl h)

theorem triple_mono_dedup_fold (ls : List CausalLink) : ∀ acc t,
    t ∈ acc.map linkTriple → t ∈ (ls.foldl addLink acc).map linkTriple := by
  induction ls with
  | nil =>
    intro acc t h
    exact h
  | cons l ls ih =>
    intro acc t h
    rw [List.foldl_cons]
    exact ih (addLink acc l) t (triple_mono_addLink acc l t h)

theorem triple_mem_dedup_fold (ls : List CausalLink) : ∀ acc l, l ∈ ls →
    linkTriple l ∈ (ls.foldl addLink acc).map linkTriple := by
  induction ls with
  | nil =>
    intro acc l h
    exact absurd h (List.not_mem_nil l)
  | cons a ls ih =>
    intro acc l h
    rw [List.foldl_cons]
    rcases List.mem_cons.mp h with hla | hls
    · subst hla
      exact triple_mono_dedup_fold ls (addLink acc l) (linkTriple l)
        (triple_mem_addLink acc l)
    · exact ih (addLink acc a) l hls

theorem triple_mem_dedupTriples (ls : List CausalLink) (l : CausalLink)
    (h : l ∈ ls) : linkTriple l ∈ (dedupTriples ls).map linkTriple :=
  triple_mem_dedup_fold ls [] l h

/-- C2: every CausalLink produced in a run pairs events whose dates
satisfy the originating rule's inclusive day-offset window. -/
theorem c2_link_respects_window (evs : List Event) (l : CausalLink)
    (hl : l ∈ linkEvents evs) :
    ∃ r ∈ RULES, ∃ c ∈ evs, ∃ ef ∈ evs,
      l.rule_name = r.name ∧ l.cause_event_id = c.id ∧ l.effect_event_id = ef.id ∧
      r.lo ≤ ef.date - c.date ∧ ef.date - c.date ≤ r.hi := by
  have hl2 : l ∈ (evs.map (linksFor evs)).flatten := mem_dedupTriples _ l hl
  rw [List.mem_flatten] at hl2
  obtain ⟨L, hL, hlL⟩ := hl2
  rw [List.mem_map] at hL
  obtain ⟨ef, hef, hLe⟩ := hL
  subst hLe
  unfold linksFor at hlL
  rw [List.mem_filterMap] at hlL
  obtain ⟨r, hr, hsome⟩ := hlL
  by_cases hm : ruleEffectMatches r ef = true
  · rw [if_pos hm] at hsome
    cases hp : pickClosest ef (candidates r ef evs) with
    | none =>
      rw [hp] at hsome
      exact absurd hsome (by simp)
    | some c =>
      rw [hp] at hsome
      have hlink : mkLink r c ef = l := Option.some.inj hsome
      have hcmem : c ∈ candidates r ef evs := pickClosest_mem ef _ c hp
      unfold candidates at hcmem
      rw [List.mem_filter] at hcmem
      obtain ⟨hcevs, hcond⟩ := hcmem
      rw [Bool.and_eq_true, Bool.and_eq_true] at hcond
      have hlo : r.lo ≤ evDist c ef := of_decide_eq_true hcond.1.2
      have hhi : evDist c ef ≤ r.hi := of_decide_eq_true hcond.2
      subst hlink
      exact ⟨r, hr, c, hcevs, ef, hef, rfl, rfl, rfl, hlo, hhi⟩
  · rw [if_neg hm] at hsome
    exact absurd hsome (by simp)

/-- Witness for C2: the concrete rheology-from-new-chemical link
produced on the demo events. -/
theorem c2_link_respects_window_witness :
    ∃ r ∈ RULES, ∃ c ∈ demoEvs, ∃ ef ∈ demoEvs,
      demoLink.rule_name = r.name ∧ demoLink.cause_event_id = c.id ∧
      demoLink.effect_event_id = ef.id ∧
      r.lo ≤ ef.date - c.date ∧ ef.date - c.date ≤ r.hi :=
  c2_link_respects_window demoEvs demoLink (by decide)

/-- C3: no (cause id, effect id, rule name) triple appears twice in a
single run's CausalLink output, for every input event list, while a
single effect can still receive links from more than one distinct
rule. -/
theorem c3_no_duplicate_triples :
    (∀ evs : List Event, ((linkEvents evs).map linkTriple).Nodup) ∧
    (∃ l1 ∈ linkEvents demoEvs, ∃ l2 ∈ linkEvents demoEvs,
      l1.effect_event_id = l2.effect_event_id ∧ l1.rule_name ≠ l2.rule_name) := by
  constructor
  · intro evs
    simpa [linkEvents, dedupTriples] using
      nodup_dedup_fold ((evs.map (linksFor evs)).flatten) [] (by simp)
  · decide

/-- C6: whenever a rule has at least one candidate cause for an effect,
the linker links the closest-in-time candidate, breaking distance ties
toward the candidate occurring earliest in the event list, and the
resulting triple appears in the run's output. -/
theorem c6_closest_candidate (evs : List Event) (r : Rule) (ef : Event)
    (hr : r ∈ RULES) (hef : ef ∈ evs) (hm : ruleEffectMatches r ef = true)
    (hne : candidates r ef evs ≠ []) :
    ∃ c pre suf, pickClosest ef (candidates r ef evs) = some c ∧
      candidates r ef evs = pre ++ c :: suf ∧
      (∀ p ∈ pre, evDist c ef < evDist p ef) ∧
      (∀ s ∈ suf, evDist c ef ≤ evDist s ef) ∧
      linkTriple (mkLink r c ef) ∈ (linkEvents evs).map linkTriple := by
  obtain ⟨a, cs, hcands⟩ := List.exists_cons_of_ne_nil hne
  have hpk : ∃ c, pickClosest ef (candidates r ef evs) = some c := by
    rw [hcands]
    exact ⟨_, rfl⟩
  obtain ⟨c, hc⟩ := hpk
  obtain ⟨pre, suf, hsplit, hpre, hsuf⟩ := pickClosest_spec ef _ c hc
  refine ⟨c, pre, suf, hc, hsplit, hpre, hsuf, ?_⟩
  have hmem : mkLink r c ef ∈ linksFor evs ef := by
    unfold linksFor
    rw [List.mem_filterMap]
    refine ⟨r, hr, ?_⟩
    rw [if_pos hm, hc]
  have hmem2 : mkLink r c ef ∈ (evs.map (linksFor evs)).flatten := by
    rw [List.mem_flatten]
    exact ⟨linksFor evs ef, List.mem_map.mpr ⟨ef, hef, rfl⟩, hmem⟩
  simpa [linkEvents, dedupTriples] using
    triple_mem_dedup_fold ((evs.map (linksFor evs)).flatten) [] _ hmem2

/-- Witness for C6 on the demo events: the new-chemical cause is linked
to the rheology effect. -/
theorem c6_closest_candidate_witness :
    ∃ c pre suf,
      pickClosest demoRheo (candidates demoRule demoRheo demoEvs) = some c ∧
      candidates demoRule demoRheo demoEvs = pre ++ c :: suf ∧
      (∀ p ∈ pre, evDist c demoRheo < evDist p demoRheo) ∧
      (∀ s ∈ suf, evDist c demoRheo ≤ evDist s demoRheo) ∧
      linkTriple (mkLink demoRule c demoRheo) ∈ (linkEvents demoEvs).map linkTriple :=
  c6_closest_candidate demoEvs demoRule demoRheo (by decide) (by decide)
    (by decide) (by decide)

theorem stripRelated_addRelated (x : String) (e : Event) :
    stripRelated (addRelated x e) = stripRelated e := by
  unfold stripRelated addRelated
  by_cases h : e.related.contains x = true
  · rw [if_pos h]
  · rw [if_neg h]

theorem addRelated_id (x : String) (e : Event) : (addRelated x e).id = e.id := by
  unfold addRelated
  by_cases h : e.related.contains x = true
  · rw [if_pos h]
  · rw [if_neg h]

theorem mem_addRelated_self (x : String) (e : Event) :
    x ∈ (addRelated x e).related := by
  unfold addRelated
  by_cases h : e.related.contains x = true
  · rw [if_pos h]
    exact List.mem_of_elem_eq_true h
  · rw [if_neg h]
    simp

theorem mem_addRelated_mono (x y : String) (e : Event) (h : y ∈ e.related) :
    y ∈ (addRelated x e).related := by
  unfold addRelated
  by_cases hc : e.related.contains x = true
  · rw [if_pos hc]
    exact h
  · rw [if_neg hc]
    simp [h]

theorem nodup_addRelated (x : String) (e : Event) (h : e.related.Nodup) :
    (addRelated x e).related.Nodup := by
  unfold addRelated
  by_cases hc : e.related.contains x = true
  · rw [if_pos hc]
    exact h
  · rw [if_neg hc]
    have hx : x ∉ e.related := fun hm => hc (List.elem_eq_true_of_mem hm)
    show (e.related ++ [x]).Nodup
    rw [List.nodup_append]
    exact ⟨h, List.nodup_singleton _,
      fun t ht h1 => hx ((List.mem_singleton.mp h1) ▸ ht)⟩

theorem applyLink_strip (evs : List Event) (l : CausalLink) :
    (applyLink evs l).map stripRelated = evs.map stripRelated := by
  unfold applyLink
  rw [List.map_map]
  apply List.map_congr_left
  intro e _
  show stripRelated (if e.id == l.cause_event_id then addRelated l.effect_event_id e
    else if e.id == l.effect_event_id then addRelated l.cause_event_id e else e) =
    stripRelated e
  by_cases h1 : (e.id == l.cause_event_id) = true
  · rw [if_pos h1, stripRelated_addRelated]
  · rw [if_neg h1]
    by_cases h2 : (e.id == l.effect_event_id) = true
    · rw [if_pos h2, stripRelated_addRelated]
    · rw [if_neg h2]

theorem applyLinks_strip (links : List CausalLink) : ∀ evs : List Event,
    (applyLinks evs links).map stripRelated = evs.map stripRelated := by
  induction links with
  | nil =>
    intro evs
    rfl
  | cons l ls ih =>
    intro evs
    show ((l :: ls).foldl applyLink evs).map stripRelated = _
    rw [List.foldl_cons]
    rw [show ls.foldl applyLink (applyLink evs l) = applyLinks (applyLink evs l) ls from rfl]
    rw [ih (applyLink evs l), applyLink_strip]

theorem applyLink_src (evs : List Event) (l : CausalLink) (e' : Event)
    (h : e' ∈ applyLink evs l) :
    ∃ e ∈ evs, e'.id = e.id ∧ ∀ y ∈ e.related, y ∈ e'.related := by
  unfold applyLink at h
  rw [List.mem_map] at h
  obtain ⟨e, he, hfe⟩ := h
  refine ⟨e, he, ?_⟩
  by_cases h1 : (e.id == l.cause_event_id) = true
  · rw [if_pos h1] at hfe
    subst hfe
    exact ⟨addRelated_id _ _, fun y hy => mem_addRelated_mono _ y e hy⟩
  · rw [if_neg h1] at hfe
    by_cases h2 : (e.id == l.effect_event_id) = true
    · rw [if_pos h2] at hfe
      subst hfe
      exact ⟨addRelated_id _ _, fun y hy => mem_addRelated_mono _ y e hy⟩
    · rw [if_neg h2] at hfe
      subst hfe
      exact ⟨rfl, fun y hy => hy⟩

theorem applyLink_bidir (evs : List Event) (l : CausalLink) (e' : Event)
    (h : e' ∈ applyLink evs l) :
    (e'.id = l.cause_event_id → l.effect_event_id ∈ e'.related) ∧
    (e'.id = l.effect_event_id → l.cause_event_id ∈ e'.related) := by
  unfold applyLink at h
  rw [List.mem_map] at h
  obtain ⟨e, he, hfe⟩ := h
  by_cases h1 : (e.id == l.cause_event_id) = true
  · rw [if_pos h1] at hfe
    subst hfe
    have hid : e.id = l.cause_event_id := beq_iff_eq.mp h1
    constructor
    · intro _
      exact mem_addRelated_self _ _
    · intro h2
      rw [addRelated_id] at h2
      have hce : l.cause_event_id = l.effect_event_id := hid ▸ h2
      rw [hce]
      exact mem_addRelated_self _ _
  · rw [if_neg h1] at hfe
    by_cases h2 : (e.id == l.effect_event_id) = true
    · rw [if_pos h2] at hfe
      subst hfe
      constructor
      · intro hcc
        rw [addRelated_id] at hcc
        exact absurd hcc (by simpa using h1)
      · intro _
        exact mem_addRelated_self _ _
    · rw [if_neg h2] at hfe
      subst hfe
      constructor
      · intro hcc
        exact absurd hcc (by simpa using h1)
      · intro hee
        exact absurd hee (by simpa using h2)

theorem bidir_pres (ls : List CausalLink) : ∀ (evs : List Event) (cid x : String),
    (∀ e ∈ evs, e.id = cid → x ∈ e.related) →
    ∀ e' ∈ ls.foldl applyLink evs, e'.id = cid → x ∈ e'.related := by
  induction ls with
  | nil =>
    intro evs cid x h e' he'
    exact h e' he'
  | cons l ls ih =>
    intro evs cid x h e' he'
    rw [List.foldl_cons] at he'
    refine ih (applyLink evs l) cid x ?_ e' he'
    intro f hf hfid
    obtain ⟨e, he, hid, hmono⟩ := applyLink_src evs l f hf
    exact hmono x (h e he (hid ▸ hfid))

theorem applyLink_nodup (evs : List Event) (l : CausalLink)
    (h : ∀ e ∈ evs, e.related.Nodup) :
    ∀ e' ∈ applyLink evs l, e'.related.Nodup := by
  intro e' he'
  unfold applyLink at he'
  rw [List.mem_map] at he'
  obtain ⟨e, he, hfe⟩ := he'
  by_cases h1 : (e.id == l.cause_event_id) = true
  · rw [if_pos h1] at hfe
    subst hfe
    exact nodup_addRelated _ e (h e he)
  · rw [if_neg h1] at hfe
    by_cases h2 : (e.id == l.effect_event_id) = true
    · rw [if_pos h2] at hfe
      subst hfe
      exact nodup_addRelated _ e (h e he)
    · rw [if_neg h2] at hfe
      subst hfe
      exact h e he

theorem nodup_pres (ls : List CausalLink) : ∀ evs : List Event,
    (∀ e ∈ evs, e.related.Nodup) →
    ∀ e' ∈ ls.foldl applyLink evs, e'.related.Nodup := by
  induction ls with
  | nil =>
    intro evs h e' he'
    exact h e' he'
  | cons l ls ih =>
    intro evs h e' he'
    rw [List.foldl_cons] at he'
    exact ih (applyLink evs l) (applyLink_nodup evs l h) e' he'

/-- C7: the Causal Linker mutates events only by appending to
related-event-id lists (all other fields survive unchanged), every
applied link is reflected bidirectionally, and no related-event-id list
acquires duplicates. -/
theorem c7_linker_frame (evs : List Event) (links : List CausalLink) :
    (applyLinks evs links).map stripRelated = evs.map stripRelated ∧
    (∀ l ∈ links, ∀ e' ∈ applyLinks evs links,
      (e'.id = l.cause_event_id → l.effect_event_id ∈ e'.related) ∧
      (e'.id = l.effect_event_id → l.cause_event_id ∈ e'.related)) ∧
    ((∀ e ∈ evs, e.related.Nodup) →
      ∀ e' ∈ applyLinks evs links, e'.related.Nodup) := by
  refine ⟨applyLinks_strip links evs, ?_, ?_⟩
  · intro l hl e' he'
    obtain ⟨pre, post, hsplit⟩ := List.append_of_mem hl
    subst hsplit
    unfold applyLinks at he'
    rw [List.foldl_append, List.foldl_cons] at he'
    constructor
    · exact bidir_pres post (applyLink (pre.foldl applyLink evs) l)
        l.cause_event_id l.effect_event_id
        (fun f hf hfid => (applyLink_bidir (pre.foldl applyLink evs) l f hf).1 hfid)
        e' he'
    · exact bidir_pres post (applyLink (pre.foldl applyLink evs) l)
        l.effect_event_id l.cause_event_id
        (fun f hf hfid => (applyLink_bidir (pre.foldl applyLink evs) l f hf).2 hfid)
        e' he'
  · intro h e' he'
    unfold applyLinks at he'
    exact nodup_pres links evs h e' he'

/-- Witness for C7 on the demo events and their links. -/
theorem c7_linker_frame_witness :
    (applyLinks demoEvs (linkEvents demoEvs)).map stripRelated =
      demoEvs.map stripRelated ∧
    (∀ e' ∈ applyLinks demoEvs (linkEvents demoEvs), e'.related.Nodup) :=
  ⟨(c7_linker_frame demoEvs (linkEvents demoEvs)).1,
   (c7_linker_frame demoEvs (linkEvents demoEvs)).2.2 (by decide)⟩

/-- C1: the full detect-plus-link pipeline is a deterministic function
of its input, and every event ID is derived only from job, date,
event-kind and the discriminating suffix through `mkEventId`. -/
theorem c1_pipeline_deterministic :
    (∀ (job : String) (h1 h2 : List DailyRecord), h1 = h2 →
      detectAndLink job h1 = detectAndLink job h2) ∧
    (∀ (job : String) (hist : List DailyRecord), ∀ e ∈ detectEvents job hist,
      e.id = mkEventId job e.date e.kind e.disc) := by
  constructor
  · intro job h1 h2 h
    rw [h]
  · intro job hist e he
    unfold detectEvents at he
    have he2 : e ∈ (((List.range hist.length).map fun i =>
        (allDetectors.map fun d => runDetector d hist i).flatten).flatten).map
          (assignId job) :=
      (List.perm_insertionSort evLE _).mem_iff.mp he
    rw [List.mem_map] at he2
    obtain ⟨p, _, hassign⟩ := he2
    subst hassign
    rfl

/-- Witness for C1: the demo history, whose single emitted event carries
the deterministic ID. -/
theorem c1_pipeline_deterministic_witness :
    detectAndLink "J" demoHist = detectAndLink "J" demoHist ∧
    demoDetected.id = mkEventId "J" demoDetected.date demoDetected.kind demoDetected.disc :=
  ⟨c1_pipeline_deterministic.1 "J" demoHist demoHist rfl,
   c1_pipeline_deterministic.2 "J" demoHist demoDetected (by decide)⟩

theorem trailingVals_at_zero (n : Nat) (f : DailyRecord → Option ℤ)
    (hist : List DailyRecord) : trailingVals n f hist 0 = [] := by
  simp [trailingVals]

theorem hoursDropFires_nil (p : Option ℤ) (c : ℤ) : hoursDropFires p c [] = false := by
  simp [hoursDropFires]

theorem prevRec_zero (hist : List DailyRecord) : prevRec hist 0 = none := rfl

theorem detectShakerDown_at_zero (hist : List DailyRecord) :
    detectShakerDown hist 0 = [] := by
  cases hg : hist[0]? with
  | none => simp [detectShakerDown, hg]
  | some r =>
    simp only [detectShakerDown, hg]
    rw [List.filterMap_eq_nil_iff]
    intro s _
    cases hsh : s.hours with
    | none => rfl
    | some c => simp [hsh, trailingVals_at_zero, hoursDropFires_nil]

theorem detectCentrifugeDown_at_zero (hist : List DailyRecord) :
    detectCentrifugeDown hist 0 = [] := by
  cases hg : hist[0]? with
  | none => simp [detectCentrifugeDown, hg]
  | some r =>
    simp only [detectCentrifugeDown, hg]
    rw [List.filterMap_eq_nil_iff]
    intro s _
    cases hsh : s.hours with
    | none => rfl
    | some c => simp [hsh, trailingVals_at_zero, hoursDropFires_nil]

theorem detectHydroDown_at_zero (hist : List DailyRecord) :
    detectHydroDown hist 0 = [] := by
  cases hg : hist[0]? with
  | none => simp [detectHydroDown, hg]
  | some r =>
    simp only [detectHydroDown, hg]
    rw [List.filterMap_eq_nil_iff]
    intro u _
    cases hh : hydroHours u r with
    | none => rfl
    | some c => simp [hh, trailingVals_at_zero, hoursDropFires_nil]

theorem detectScreenChange_at_zero (hist : List DailyRecord) :
    detectScreenChange hist 0 = [] := by
  cases hg : hist[0]? <;> simp [detectScreenChange, prevRec_zero, hg]

theorem detectCentFeedChange_at_zero (hist : List DailyRecord) :
    detectCentFeedChange hist 0 = [] := by
  cases hg : hist[0]? <;> simp [detectCentFeedChange, prevRec_zero, hg]

theorem detectStartup_at_zero (hist : List DailyRecord) :
    detectStartup hist 0 = [] := by
  cases hg : hist[0]? <;> simp [detectStartup, prevRec_zero, hg]

theorem detectSolidsSpike_at_zero (hist : List DailyRecord) :
    detectSolidsSpike hist 0 = [] := by
  cases hg : hist[0]? <;> simp [detectSolidsSpike, prevRec_zero, hg]

theorem detectLgsCreep_at_zero (hist : List DailyRecord) :
    detectLgsCreep hist 0 = [] := by
  cases hg : hist[0]? with
  | none => simp [detectLgsCreep, hg]
  | some r =>
    cases hl : r.mud.lgs with
    | none => simp [detectLgsCreep, hg, hl]
    | some c => simp [detectLgsCreep, hg, hl, trailingVals_at_zero]

theorem detectDrillSolidsRise_at_zero (hist : List DailyRecord) :
    detectDrillSolidsRise hist 0 = [] := by
  cases hg : hist[0]? <;> simp [detectDrillSolidsRise, prevRec_zero, hg]

theorem rheoOne_at_zero (label : String) (f : MudProps → Option ℤ)
    (hist : List DailyRecord) : rheoOne label f hist 0 = [] := by
  cases hg : hist[0]? with
  | none => simp [rheoOne, hg]
  | some r =>
    cases hl : f r.mud with
    | none => simp [rheoOne, hg, hl]
    | some c => simp [rheoOne, hg, hl, trailingVals_at_zero]

theorem detectRheologyShift_at_zero (hist : List DailyRecord) :
    detectRheologyShift hist 0 = [] := by
  simp [detectRheologyShift, rheoOne_at_zero]

theorem detectWeightUp_at_zero (hist : List DailyRecord) :
    detectWeightUp hist 0 = [] := by
  cases hg : hist[0]? <;> simp [detectWeightUp, prevRec_zero, hg]

theorem detectDilution_at_zero (hist : List DailyRecord) :
    detectDilution hist 0 = [] := by
  cases hg : hist[0]? <;> simp [detectDilution, prevRec_zero, hg]

theorem detectPhShift_at_zero (hist : List DailyRecord) :
    detectPhShift hist 0 = [] := by
  cases hg : hist[0]? <;> simp [detectPhShift, prevRec_zero, hg]

theorem detectChemicalSpike_at_zero (hist : List DailyRecord) :
    detectChemicalSpike hist 0 = [] := by
  cases hg : hist[0]? with
  | none => simp [detectChemicalSpike, hg]
  | some r =>
    simp only [detectChemicalSpike, hg]
    rw [List.filterMap_eq_nil_iff]
    intro x _
    simp

theorem detectHighSCRemoval_at_zero (hist : List DailyRecord) :
    detectHighSCRemoval hist 0 = [] := by
  cases hg : hist[0]? <;> simp [detectHighSCRemoval, hg]

/-- C5: detectors degrade gracefully — every trailing-comparison
detector emits nothing on the first recorded day, every detector emits
nothing on an all-null day, and every detector emits nothing past the
end of the history (the Lean model is total, so no detector can
throw). -/
theorem c5_graceful_degradation :
    (∀ (hist : List DailyRecord) (d : DetectorId), d ∈ trailingDetectors →
      runDetector d hist 0 = []) ∧
    (∀ (hist : List DailyRecord) (i : Nat) (d : DetectorId) (dt : Int),
      hist[i]? = some (nullDay dt) → runDetector d hist i = []) ∧
    (∀ (hist : List DailyRecord) (i : Nat) (d : DetectorId),
      hist[i]? = none → runDetector d hist i = []) := by
  refine ⟨?_, ?_, ?_⟩
  · intro hist d hd
    fin_cases hd
    · exact detectShakerDown_at_zero hist
    · exact detectCentrifugeDown_at_zero hist
    · exact detectHydroDown_at_zero hist
    · exact detectScreenChange_at_zero hist
    · exact detectCentFeedChange_at_zero hist
    · exact detectStartup_at_zero hist
    · exact detectSolidsSpike_at_zero hist
    · exact detectLgsCreep_at_zero hist
    · exact detectDrillSolidsRise_at_zero hist
    · exact detectRheologyShift_at_zero hist
    · exact detectWeightUp_at_zero hist
    · exact detectDilution_at_zero hist
    · exact detectPhShift_at_zero hist
    · exact detectChemicalSpike_at_zero hist
    · exact detectHighSCRemoval_at_zero hist
  · intro hist i d dt hr
    cases d
    · simp [runDetector, detectShakerDown, hr, nullDay]
    · simp [runDetector, detectCentrifugeDown, hr, nullDay]
    · simp [runDetector, detectHydroDown, hr, nullDay, hydroHours]
    · cases hp : prevRec hist i <;>
        simp [runDetector, detectScreenChange, hp, hr, nullDay]
    · cases hp : prevRec hist i <;>
        simp [runDetector, detectCentFeedChange, hp, hr, nullDay]
    · cases hp : prevRec hist i <;>
        simp [runDetector, detectStartup, hp, hr, nullDay, hydroHours]
    · cases hp : prevRec hist i with
      | none => simp [runDetector, detectSolidsSpike, hp, hr]
      | some p =>
        cases hps : p.mud.solids <;>
          simp [runDetector, detectSolidsSpike, hp, hr, hps, nullDay]
    · simp [runDetector, detectSandIncrease, hr, nullDay]
    · simp [runDetector, detectLgsCreep, hr, nullDay]
    · cases hp : prevRec hist i with
      | none => simp [runDetector, detectDrillSolidsRise, hp, hr]
      | some p =>
        cases hps : p.mud.drillSolids <;>
          simp [runDetector, detectDrillSolidsRise, hp, hr, hps, nullDay]
    · simp [runDetector, detectRheologyShift, rheoOne, hr, nullDay]
    · cases hp : prevRec hist i with
      | none => simp [runDetector, detectWeightUp, hp, hr]
      | some p =>
        cases hps : p.mud.mudWeight <;>
          simp [runDetector, detectWeightUp, hp, hr, hps, nullDay]
    · cases hp : prevRec hist i with
      | none => simp [runDetector, detectDilution, hp, hr]
      | some p =>
        cases hps : p.mud.mudWeight <;>
          simp [runDetector, detectDilution, hp, hr, hps, nullDay]
    · cases hp : prevRec hist i with
      | none => simp [runDetector, detectPhShift, hp, hr]
      | some p =>
        cases hps : p.mud.ph <;>
          simp [runDetector, detectPhShift, hp, hr, hps, nullDay]
    · simp [runDetector, detectNewChemical, hr, nullDay]
    · simp [runDetector, detectChemicalSpike, hr, nullDay]
    · simp [runDetector, detectLargeFormationLoss, hr, nullDay]
    · simp [runDetector, detectHighSCRemoval, hr, nullDay]
  · intro hist i d hr
    cases d
    · simp [runDetector, detectShakerDown, hr]
    · simp [runDetector, detectCentrifugeDown, hr]
    · simp [runDetector, detectHydroDown, hr]
    · cases hp : prevRec hist i <;> simp [runDetector, detectScreenChange, hp, hr]
    · cases hp : prevRec hist i <;> simp [runDetector, detectCentFeedChange, hp, hr]
    · cases hp : prevRec hist i <;> simp [runDetector, detectStartup, hp, hr]
    · cases hp : prevRec hist i <;> simp [runDetector, detectSolidsSpike, hp, hr]
    · simp [runDetector, detectSandIncrease, hr]
    · simp [runDetector, detectLgsCreep, hr]
    · cases hp : prevRec hist i <;> simp [runDetector, detectDrillSolidsRise, hp, hr]
    · simp [runDetector, detectRheologyShift, rheoOne, hr]
    · cases hp : prevRec hist i <;> simp [runDetector, detectWeightUp, hp, hr]
    · cases hp : prevRec hist i <;> simp [runDetector, detectDilution, hp, hr]
    · cases hp : prevRec hist i <;> simp [runDetector, detectPhShift, hp, hr]
    · simp [runDetector, detectNewChemical, hr]
    · simp [runDetector, detectChemicalSpike, hr]
    · simp [runDetector, detectLargeFormationLoss, hr]
    · simp [runDetector, detectHighSCRemoval, hr]

/-- Witness for C5 at concrete inputs: a trailing detector on day 0, an
all-null day, and an out-of-range index. -/
theorem c5_graceful_degradation_witness :
    runDetector DetectorId.shakerDown [shakerDay 1 (some 18)] 0 = [] ∧
    runDetector DetectorId.solidsSpike [nullDay 1, nullDay 2] 1 = [] ∧
    runDetector DetectorId.newChemical [nullDay 1] 5 = [] :=
  ⟨c5_graceful_degradation.1 [shakerDay 1 (some 18)] DetectorId.shakerDown (by decide),
   c5_graceful_degradation.2.1 [nullDay 1, nullDay 2] 1 DetectorId.solidsSpike 2 (by decide),
   c5_graceful_degradation.2.2 [nullDay 1] 5 DetectorId.newChemical (by decide)⟩

theorem hoursDropFires_zero_guard (w : List ℤ) :
    hoursDropFires (some 0) 0 w = false := by
  simp [hoursDropFires]

theorem hoursDropFires_bounds (p : Option ℤ) (c : ℤ) (w : List ℤ)
    (h : hoursDropFires p c w = true) :
    w ≠ [] ∧ 0 < w.sum ∧ c * 2 * (w.length : ℤ) ≤ w.sum := by
  unfold hoursDropFires at h
  simp only [Bool.and_eq_true, Bool.not_eq_true', decide_eq_true_eq] at h
  obtain ⟨⟨⟨hne, h0⟩, hle⟩, -⟩ := h
  refine ⟨?_, h0, hle⟩
  intro hnil
  subst hnil
  simp at hne

/-- C4: a unit reading 0 hours on day N−1 and day N never yields an
hours-drop event (no down event from steady idle), and an hours-drop
event fires only when the current hours are at most 50% of a
non-trivial 7-day trailing average, stated division-free as
`2·cur·|w| ≤ sum w` with `0 < sum w`. -/
theorem c4_no_drop_from_idle :
    (∀ (hist : List DailyRecord) (i : Nat) (name : String) (rp r : DailyRecord),
      prevRec hist i = some rp → hist[i]? = some r →
      shakerHoursIn rp name = some 0 →
      (∀ s ∈ r.shakers, s.name = name → s.hours = some 0) →
      ∀ e ∈ detectShakerDown hist i, e.disc ≠ name) ∧
    (∀ (hist : List DailyRecord) (i : Nat) (name : String) (rp r : DailyRecord),
      prevRec hist i = some rp → hist[i]? = some r →
      centHoursIn rp name = some 0 →
      (∀ s ∈ r.centrifuges, s.name = name → s.hours = some 0) →
      ∀ e ∈ detectCentrifugeDown hist i, e.disc ≠ name) ∧
    (∀ (hist : List DailyRecord) (i : Nat) (u : HydroUnit) (rp r : DailyRecord),
      prevRec hist i = some rp → hist[i]? = some r →
      hydroHours u rp = some 0 → hydroHours u r = some 0 →
      ∀ e ∈ detectHydroDown hist i, e.disc ≠ hydroName u) ∧
    (∀ (hist : List DailyRecord) (i : Nat), ∀ e ∈ detectShakerDown hist i,
      ∃ r, hist[i]? = some r ∧ ∃ s ∈ r.shakers, s.name = e.disc ∧
        ∃ c, s.hours = some c ∧
          trailingVals 7 (fun d => shakerHoursIn d s.name) hist i ≠ [] ∧
          0 < (trailingVals 7 (fun d => shakerHoursIn d s.name) hist i).sum ∧
          c * 2 * ((trailingVals 7 (fun d => shakerHoursIn d s.name) hist i).length : ℤ) ≤
            (trailingVals 7 (fun d => shakerHoursIn d s.name) hist i).sum) ∧
    (∀ (hist : List DailyRecord) (i : Nat), ∀ e ∈ detectCentrifugeDown hist i,
      ∃ r, hist[i]? = some r ∧ ∃ s ∈ r.centrifuges, s.name = e.disc ∧
        ∃ c, s.hours = some c ∧
          trailingVals 7 (fun d => centHoursIn d s.name) hist i ≠ [] ∧
          0 < (trailingVals 7 (fun d => centHoursIn d s.name) hist i).sum ∧
          c * 2 * ((trailingVals 7 (fun d => centHoursIn d s.name) hist i).length : ℤ) ≤
            (trailingVals 7 (fun d => centHoursIn d s.name) hist i).sum) ∧
    (∀ (hist : List DailyRecord) (i : Nat), ∀ e ∈ detectHydroDown hist i,
      ∃ r, hist[i]? = some r ∧ ∃ u : HydroUnit, hydroName u = e.disc ∧
        ∃ c, hydroHours u r = some c ∧
          trailingVals 7 (hydroHours u) hist i ≠ [] ∧
          0 < (trailingVals 7 (hydroHours u) hist i).sum ∧
          c * 2 * ((trailingVals 7 (hydroHours u) hist i).length : ℤ) ≤
            (trailingVals 7 (hydroHours u) hist i).sum) := by
  refine ⟨?_, ?_, ?_, ?_, ?_, ?_⟩
  · intro hist i name rp r hp hg h0 hcur e he
    simp only [detectShakerDown, hg] at he
    rw [List.mem_filterMap] at he
    obtain ⟨s, hs, hf⟩ := he
    cases hsh : s.hours with
    | none =>
      rw [hsh] at hf
      exact absurd hf (by simp)
    | some c =>
      simp only [hsh] at hf
      by_cases hfire : hoursDropFires ((prevRec hist i).bind fun p => shakerHoursIn p s.name)
          c (trailingVals 7 (fun d => shakerHoursIn d s.name) hist i) = true
      · rw [if_pos hfire] at hf
        intro heq
        have hde : e.disc = s.name := by rw [← Option.some.inj hf]; rfl
        have hsn : s.name = name := by rw [← hde, heq]
        have hc0 : c = 0 := by
          have h2 := hcur s hs hsn
          rw [hsh] at h2
          exact Option.some.inj h2
        have hprev : (prevRec hist i).bind (fun p => shakerHoursIn p s.name) = some 0 := by
          rw [hp]
          simpa [hsn] using h0
        rw [hprev, hc0, hoursDropFires_zero_guard] at hfire
        exact absurd hfire (by simp)
      · rw [if_neg hfire] at hf
        exact absurd hf (by simp)
  · intro hist i name rp r hp hg h0 hcur e he
    simp only [detectCentrifugeDown, hg] at he
    rw [List.mem_filterMap] at he
    obtain ⟨s, hs, hf⟩ := he
    cases hsh : s.hours with
    | none =>
      rw [hsh] at hf
      exact absurd hf (by simp)
    | some c =>
      simp only [hsh] at hf
      by_cases hfire : hoursDropFires ((prevRec hist i).bind fun p => centHoursIn p s.name)
          c (trailingVals 7 (fun d => centHoursIn d s.name) hist i) = true
      · rw [if_pos hfire] at hf
        intro heq
        have hde : e.disc = s.name := by rw [← Option.some.inj hf]; rfl
        have hsn : s.name = name := by rw [← hde, heq]
        have hc0 : c = 0 := by
          have h2 := hcur s hs hsn
          rw [hsh] at h2
          exact Option.some.inj h2
        have hprev : (prevRec hist i).bind (fun p => centHoursIn p s.name) = some 0 := by
          rw [hp]
          simpa [hsn] using h0
        rw [hprev, hc0, hoursDropFires_zero_guard] at hfire
        exact absurd hfire (by simp)
      · rw [if_neg hfire] at hf
        exact absurd hf (by simp)
  · intro hist i u rp r hp hg h0 hcur e he
    simp only [detectHydroDown, hg] at he
    rw [List.mem_filterMap] at he
    obtain ⟨u', hu', hf⟩ := he
    cases hh : hydroHours u' r with
    | none =>
      rw [hh] at hf
      exact absurd hf (by simp)
    | some c =>
      simp only [hh] at hf
      by_cases hfire : hoursDropFires ((prevRec hist i).bind (hydroHours u'))
          c (trailingVals 7 (hydroHours u') hist i) = true
      · rw [if_pos hfire] at hf
        intro heq
        have hde : e.disc = hydroName u' := by rw [← Option.some.inj hf]; rfl
        have huu : u' = u := by
          have : hydroName u' = hydroName u := by rw [← hde, heq]
          cases u' <;> cases u <;> simp [hydroName] at this ⊢
        subst huu
        have hc0 : c = 0 := by
          rw [hcur] at hh
          exact (Option.some.inj hh).symm
        have hprev : (prevRec hist i).bind (hydroHours u') = some 0 := by
          rw [hp]
          simpa using h0
        rw [hprev, hc0, hoursDropFires_zero_guard] at hfire
        exact absurd hfire (by simp)
      · rw [if_neg hfire] at hf
        exact absurd hf (by simp)
  · intro hist i e he
    cases hg : hist[i]? with
    | none =>
      simp only [detectShakerDown, hg] at he
      exact absurd he (List.not_mem_nil e)
    | some r =>
      simp only [detectShakerDown, hg] at he
      rw [List.mem_filterMap] at he
      obtain ⟨s, hs, hf⟩ := he
      cases hsh : s.hours with
      | none =>
        rw [hsh] at hf
        exact absurd hf (by simp)
      | some c =>
        simp only [hsh] at hf
        by_cases hfire : hoursDropFires ((prevRec hist i).bind fun p => shakerHoursIn p s.name)
            c (trailingVals 7 (fun d => shakerHoursIn d s.name) hist i) = true
        · rw [if_pos hfire] at hf
          have hde : e.disc = s.name := by rw [← Option.some.inj hf]; rfl
          obtain ⟨hne, h0, hle⟩ := hoursDropFires_bounds _ _ _ hfire
          exact ⟨r, rfl, s, hs, hde.symm, c, hsh, hne, h0, hle⟩
        · rw [if_neg hfire] at hf
          exact absurd hf (by simp)
  · intro hist i e he
    cases hg : hist[i]? with
    | none =>
      simp only [detectCentrifugeDown, hg] at he
      exact absurd he (List.not_mem_nil e)
    | some r =>
      simp only [detectCentrifugeDown, hg] at he
      rw [List.mem_filterMap] at he
      obtain ⟨s, hs, hf⟩ := he
      cases hsh : s.hours with
      | none =>
        rw [hsh] at hf
        exact absurd hf (by simp)
      | some c =>
        simp only [hsh] at hf
        by_cases hfire : hoursDropFires ((prevRec hist i).bind fun p => centHoursIn p s.name)
            c (trailingVals 7 (fun d => centHoursIn d s.name) hist i) = true
        · rw [if_pos hfire] at hf
          have hde : e.disc = s.name := by rw [← Option.some.inj hf]; rfl
          obtain ⟨hne, h0, hle⟩ := hoursDropFires_bounds _ _ _ hfire
          exact ⟨r, rfl, s, hs, hde.symm, c, hsh, hne, h0, hle⟩
        · rw [if_neg hfire] at hf
          exact absurd hf (by simp)
  · intro hist i e he
    cases hg : hist[i]? with
    | none =>
      simp only [detectHydroDown, hg] at he
      exact absurd he (List.not_mem_nil e)
    | some r =>
      simp only [detectHydroDown, hg] at he
      rw [List.mem_filterMap] at he
      obtain ⟨u, hu, hf⟩ := he
      cases hh : hydroHours u r with
      | none =>
        rw [hh] at hf
        exact absurd hf (by simp)
      | some c =>
        simp only [hh] at hf
        by_cases hfire : hoursDropFires ((prevRec hist i).bind (hydroHours u))
            c (trailingVals 7 (hydroHours u) hist i) = true
        · rw [if_pos hfire] at hf
          have hde : e.disc = hydroName u := by rw [← Option.some.inj hf]; rfl
          obtain ⟨hne, h0, hle⟩ := hoursDropFires_bounds _ _ _ hfire
          exact ⟨r, rfl, u, hde.symm, c, hh, hne, h0, hle⟩
        · rw [if_neg hfire] at hf
          exact absurd hf (by simp)

/-- Witness for C4: the idle 0→0 shaker history yields no shaker-down
event naming the idle unit. -/
theorem c4_no_drop_from_idle_witness :
    (detectShakerDown idleHist 1).all (fun e => decide (e.disc ≠ "S1")) = true := by
  rw [List.all_eq_true]
  intro e he
  exact decide_eq_true
    (c4_no_drop_from_idle.1 idleHist 1 "S1" (shakerDay 1 (some 0)) (shakerDay 2 (some 0))
      (by decide) (by decide) (by decide) (by decide) e he)
